import Mathlib

/-!
Shallow embedding of the mm-modchart-maker map codec
(src/maps/io.rs, src/maps/parser.rs, src/maps/objects/note.rs, src/maps/map.rs).

Modelling conventions:
* Byte streams are lists of slots (`SByte`).  An ordinary byte is `SByte.raw b`
  with `b : Nat` (< 256 for real data).  Rust `f32` values are modelled as exact
  rationals (`Rat`); a serialized 32-bit float occupies four slots
  `[.flv q, .fcont, .fcont, .fcont]` so that all offset arithmetic matches the
  byte-accurate layout of the Rust code, and a 64-bit float occupies eight.
* Rust `io::Error` values are `PErr.ioError kind msg`; a Rust panic (assertion
  failure, `HashMap` indexing with a missing key, integer over/underflow in a
  debug build) is the distinguished outcome `PErr.panicked msg`, which is not a
  structured error value returned to the caller.
* Machine-integer casts (`as u8`, `as u16`, ...) are modelled with explicit
  `% 2^w` arithmetic via the little-endian byte decomposition `leBytes`.
-/

inductive ErrorKind where
  | invalidData
  | unexpectedEof
  | otherError
deriving DecidableEq, Repr

inductive PErr where
  | ioError (kind : ErrorKind) (msg : String)
  | panicked (msg : String)
deriving DecidableEq, Repr

inductive SByte where
  | raw (b : Nat)
  | flv (q : Rat)
  | fcont
deriving DecidableEq, Repr

/-- Lift a list of plain bytes into stream slots. -/
def rawL (bs : List Nat) : List SByte := bs.map SByte.raw

/-- Little-endian byte decomposition of a natural number into `n` bytes;
this is `to_le_bytes` composed with the truncating cast to an `n`-byte
unsigned integer (the decomposition inherently reduces modulo `2^(8n)`). -/
def leBytes : Nat → Nat → List Nat
  | 0, _ => []
  | n + 1, v => v % 256 :: leBytes n (v / 256)

/-- Little-endian recomposition (`from_le_bytes`). -/
def natOfLE : List Nat → Nat
  | [] => 0
  | b :: bs => b + 256 * natOfLE bs

/-- UTF-8 validity of a byte sequence, as checked by `String::from_utf8`
(standard UTF-8: no overlong forms, no surrogates, max U+10FFFF). -/
def isValidUtf8 : List Nat → Bool
  | [] => true
  | b :: rest =>
    if b ≤ 0x7F then isValidUtf8 rest
    else if 0xC2 ≤ b ∧ b ≤ 0xDF then
      match rest with
      | c1 :: r => (0x80 ≤ c1 && c1 ≤ 0xBF) && isValidUtf8 r
      | [] => false
    else if b = 0xE0 then
      match rest with
      | c1 :: c2 :: r =>
        (0xA0 ≤ c1 && c1 ≤ 0xBF) && (0x80 ≤ c2 && c2 ≤ 0xBF) && isValidUtf8 r
      | _ => false
    else if 0xE1 ≤ b ∧ b ≤ 0xEC then
      match rest with
      | c1 :: c2 :: r =>
        (0x80 ≤ c1 && c1 ≤ 0xBF) && (0x80 ≤ c2 && c2 ≤ 0xBF) && isValidUtf8 r
      | _ => false
    else if b = 0xED then
      match rest with
      | c1 :: c2 :: r =>
        (0x80 ≤ c1 && c1 ≤ 0x9F) && (0x80 ≤ c2 && c2 ≤ 0xBF) && isValidUtf8 r
      | _ => false
    else if 0xEE ≤ b ∧ b ≤ 0xEF then
      match rest with
      | c1 :: c2 :: r =>
        (0x80 ≤ c1 && c1 ≤ 0xBF) && (0x80 ≤ c2 && c2 ≤ 0xBF) && isValidUtf8 r
      | _ => false
    else if b = 0xF0 then
      match rest with
      | c1 :: c2 :: c3 :: r =>
        (0x90 ≤ c1 && c1 ≤ 0xBF) && (0x80 ≤ c2 && c2 ≤ 0xBF) &&
          (0x80 ≤ c3 && c3 ≤ 0xBF) && isValidUtf8 r
      | _ => false
    else if 0xF1 ≤ b ∧ b ≤ 0xF3 then
      match rest with
      | c1 :: c2 :: c3 :: r =>
        (0x80 ≤ c1 && c1 ≤ 0xBF) && (0x80 ≤ c2 && c2 ≤ 0xBF) &&
          (0x80 ≤ c3 && c3 ≤ 0xBF) && isValidUtf8 r
      | _ => false
    else if b = 0xF4 then
      match rest with
      | c1 :: c2 :: c3 :: r =>
        (0x80 ≤ c1 && c1 ≤ 0x8F) && (0x80 ≤ c2 && c2 ≤ 0xBF) &&
          (0x80 ≤ c3 && c3 ≤ 0xBF) && isValidUtf8 r
      | _ => false
    else false

/-- Rust `f32::round`: round half away from zero (on the rational model). -/
def rustRoundZ (q : Rat) : Int := if 0 ≤ q then ⌊q + 1/2⌋ else ⌈q - 1/2⌉

def rustRound (q : Rat) : Rat := (rustRoundZ q : Rat)

/-- The helper `round_to_places(value, 2)` from src/maps/parser.rs:
`factor = 10^2 = 100; (value * factor).round() / factor`. -/
def rtp2 (q : Rat) : Rat := rustRound (q * 100) / 100

/-- Rust saturating float-to-`u8` cast (`x as u8`): truncate toward zero and
clamp into `[0, 255]`. -/
def f32AsU8 (q : Rat) : Nat := if q < 0 then 0 else min 255 q.floor.toNat

/-- Checked `u8` increment: `+ 1` on a `u8` panics on overflow (debug build;
release builds wrap, either way no structured io error is produced). -/
def u8AddOne (n : Nat) : Except PErr Nat :=
  if n + 1 < 256 then .ok (n + 1) else .error (.panicked "attempt to add with overflow")

/-- Checked `u8` decrement: `- 1` on a `u8` panics on underflow (debug build;
release builds wrap to 255, either way no structured io error is produced). -/
def u8SubOne (n : Nat) : Except PErr Nat :=
  if n = 0 then .error (.panicked "attempt to subtract with overflow") else .ok (n - 1)

/-!
Binary cursor (src/maps/io.rs): `BinaryReader` over `(data, pos)` state.
All reads are fail-fast: a short read is a hard `UnexpectedEof` error.
-/

structure RState where
  data : List SByte
  pos : Nat
deriving DecidableEq, Repr

namespace BinaryReader

/-- Read exactly `n` slots (the model of `read_exact` into an `n`-byte buffer). -/
def read_exact (n : Nat) (r : RState) : Except PErr (List SByte × RState) :=
  if r.pos + n ≤ r.data.length then
    .ok ((r.data.drop r.pos).take n, ⟨r.data, r.pos + n⟩)
  else
    .error (.ioError .unexpectedEof "failed to fill whole buffer")

/-- A slot read into a `u8` buffer must be an ordinary byte; float slots only
ever sit where the codec reads floats, so this mismatch arm is unreachable on
codec-produced data. -/
def asRaw : SByte → Except PErr Nat
  | .raw b => .ok b
  | _ => .error (.ioError .otherError "non-byte slot")

def read_bytes (n : Nat) (r : RState) : Except PErr (List Nat × RState) := do
  let (s, r2) ← read_exact n r
  let bs ← s.mapM asRaw
  .ok (bs, r2)

def read_u8 (r : RState) : Except PErr (Nat × RState) :=
  (read_bytes 1 r).map fun p => (natOfLE p.1, p.2)

def read_u16 (r : RState) : Except PErr (Nat × RState) :=
  (read_bytes 2 r).map fun p => (natOfLE p.1, p.2)

def read_u32 (r : RState) : Except PErr (Nat × RState) :=
  (read_bytes 4 r).map fun p => (natOfLE p.1, p.2)

def read_u64 (r : RState) : Except PErr (Nat × RState) :=
  (read_bytes 8 r).map fun p => (natOfLE p.1, p.2)

/-- Reads one byte; the boolean is true exactly when the byte is `0x01`. -/
def read_bool (r : RState) : Except PErr (Bool × RState) :=
  (read_bytes 1 r).map fun p => (natOfLE p.1 == 1, p.2)

def read_f32 (r : RState) : Except PErr (Rat × RState) := do
  let (s, r2) ← read_exact 4 r
  match s with
  | [.flv q, .fcont, .fcont, .fcont] => .ok (q, r2)
  | _ => .error (.ioError .otherError "malformed float slots")

def read_f64 (r : RState) : Except PErr (Rat × RState) := do
  let (s, r2) ← read_exact 8 r
  match s with
  | [.flv q, .fcont, .fcont, .fcont, .fcont, .fcont, .fcont, .fcont] => .ok (q, r2)
  | _ => .error (.ioError .otherError "malformed float slots")

/-- Length-prefixed (16-bit) UTF-8 string; invalid UTF-8 is an invalid-data error. -/
def read_string (r : RState) : Except PErr (List Nat × RState) := do
  let (n, r2) ← read_u16 r
  let (bs, r3) ← read_bytes n r2
  if isValidUtf8 bs then .ok (bs, r3)
  else .error (.ioError .invalidData "Invalid UTF-8 sequence")

/-- Length-prefixed (32-bit) UTF-8 string. -/
def read_long_string (r : RState) : Except PErr (List Nat × RState) := do
  let (n, r2) ← read_u32 r
  let (bs, r3) ← read_bytes n r2
  if isValidUtf8 bs then .ok (bs, r3)
  else .error (.ioError .invalidData "Invalid UTF-8 sequence")

def read_sha1 (r : RState) : Except PErr (List Nat × RState) := read_bytes 20 r

/-- SeekFrom::Start. -/
def seekStart (n : Nat) (r : RState) : RState := ⟨r.data, n⟩

def stream_position (r : RState) : Nat := r.pos

end BinaryReader

/-!
`BinaryWriter` over `(data, pos)` state.  Writing past the end appends;
writing inside the already-written region overwrites in place (as a seekable
file does), which models the deferred offset back-patching of the encoder.
-/

structure WState where
  data : List SByte
  pos : Nat
deriving DecidableEq, Repr

def listOverwrite (d : List SByte) (p : Nat) (l : List SByte) : List SByte :=
  d.take p ++ List.replicate (p - d.length) (SByte.raw 0) ++ l ++ d.drop (p + l.length)

namespace BinaryWriter

def write_all (w : WState) (l : List SByte) : WState :=
  ⟨listOverwrite w.data w.pos l, w.pos + l.length⟩

def write_u8 (w : WState) (v : Nat) : WState := write_all w (rawL (leBytes 1 v))

def write_u16 (w : WState) (v : Nat) : WState := write_all w (rawL (leBytes 2 v))

def write_u32 (w : WState) (v : Nat) : WState := write_all w (rawL (leBytes 4 v))

def write_u64 (w : WState) (v : Nat) : WState := write_all w (rawL (leBytes 8 v))

def write_bool (w : WState) (b : Bool) : WState :=
  write_all w [SByte.raw (if b then 0x01 else 0x00)]

def write_f32 (w : WState) (q : Rat) : WState :=
  write_all w [SByte.flv q, .fcont, .fcont, .fcont]

def write_f64 (w : WState) (q : Rat) : WState :=
  write_all w [SByte.flv q, .fcont, .fcont, .fcont, .fcont, .fcont, .fcont, .fcont]

/-- Writes `value.len() as u16` as a little-endian prefix, then all the bytes. -/
def write_string (w : WState) (s : List Nat) : WState :=
  write_all (write_all w (rawL (leBytes 2 s.length))) (rawL s)

/-- Writes `value.len() as u32` as a little-endian prefix, then all the bytes. -/
def write_long_string (w : WState) (s : List Nat) : WState :=
  write_all (write_all w (rawL (leBytes 4 s.length))) (rawL s)

def write_sha1 (w : WState) (bs : List Nat) : WState := write_all w (rawL bs)

def seekTo (w : WState) (n : Nat) : WState := ⟨w.data, n⟩

def seekEnd (w : WState) : WState := ⟨w.data, w.data.length⟩

def stream_position (w : WState) : Nat := w.pos

end BinaryWriter

/-!
Data model (src/maps/parser.rs, src/maps/objects/note.rs, src/maps/map.rs).
Rust `String` values are modelled by their UTF-8 byte lists; `Vec2` by a pair
of rationals.
-/

inductive ObjectType where
  | U8 (v : Option Nat)
  | U16 (v : Option Nat)
  | U32 (v : Option Nat)
  | U64 (v : Option Nat)
  | F32 (v : Option Rat)
  | F64 (v : Option Rat)
  | Vec2 (v : Option (Rat × Rat))
  | Buf (v : Option (List Nat))
  | String (v : Option (List Nat))
  | LongBuf (v : Option (List Nat))
  | LongString (v : Option (List Nat))
  | I64 (v : Option Int)
  | Vec3 (v : Option (Rat × Rat × Rat))
  | Vec (v : Option (List ObjectType))

structure ObjectDefinition where
  name : List Nat
  millisecond : Nat
  definitions : List ObjectType

structure Note where
  millisecond : Nat
  position : Rat × Rat
deriving DecidableEq, Repr

inductive MapFormat where
  | SSPM
  | PHXM
deriving DecidableEq, Repr

/-- The decoded map.  `audio` models `Option<AudioSource>` by its byte list. -/
structure Map where
  id : List Nat
  length : Nat
  title : List Nat
  artists : List (List Nat)
  difficulty : Nat
  difficulty_name : List Nat
  mappers : List (List Nat)
  audio : Option (List Nat)
  cover : List Nat
  notes : List Note
  objects : List ObjectDefinition
  format : MapFormat

/-- The audio byte content of a map (empty when no audio is present). -/
def Map.audioBytes (m : Map) : List Nat := m.audio.getD []

/-- ObjectType.from_sspm: the SSPM type-tag table; an unrecognized tag is an
invalid-data error. -/
def ObjectType.from_sspm (value : Nat) : Except PErr ObjectType :=
  match value with
  | 0x01 => .ok (.U8 none)
  | 0x02 => .ok (.U16 none)
  | 0x03 => .ok (.U32 none)
  | 0x04 => .ok (.U64 none)
  | 0x05 => .ok (.F32 none)
  | 0x06 => .ok (.F64 none)
  | 0x07 => .ok (.Vec2 none)
  | 0x08 => .ok (.Buf none)
  | 0x09 => .ok (.String none)
  | 0x0A => .ok (.LongBuf none)
  | 0x0B => .ok (.LongString none)
  | 0x0C => .ok (.Vec none)
  | _ => .error (.ioError .invalidData "")

/-- Note::from_definition (src/maps/objects/note.rs): a Note is projected from
a generic record by taking its first field slot, which must be a populated
2D vector. -/
def Note.from_definition (obj : ObjectDefinition) : Except PErr Note :=
  if obj.definitions.length < 1 then
    .error (.ioError .invalidData "Object definition has no types")
  else
    match obj.definitions.head? with
    | some (ObjectType.Vec2 (some v)) => .ok ⟨obj.millisecond, v⟩
    | _ => .error (.ioError .invalidData "Object could not be parsed as Note")

/-!
SSPM encoder (SSPMSerializer::serialize, src/maps/parser.rs lines 79-186).
-/

/-- UTF-8 bytes of the reserved record name `ssp_note`. -/
def sspNoteName : List Nat := [0x73, 0x73, 0x70, 0x5F, 0x6E, 0x6F, 0x74, 0x65]

/-- UTF-8 bytes of the custom-data field name `difficulty_name`. -/
def difficultyNameKey : List Nat :=
  [0x64, 0x69, 0x66, 0x66, 0x69, 0x63, 0x75, 0x6C, 0x74, 0x79, 0x5F, 0x6E, 0x61, 0x6D, 0x65]

/-- UTF-8 bytes of the export signature string `MM Export - 0.0.1`. -/
def exportSignature : List Nat :=
  [0x4D, 0x4D, 0x20, 0x45, 0x78, 0x70, 0x6F, 0x72, 0x74, 0x20, 0x2D, 0x20,
   0x30, 0x2E, 0x30, 0x2E, 0x31]

/-- The quantum decision of the note writer:
`round(x) != round_to_places(x, 2) || round(y) != round_to_places(y, 2)`. -/
def isQuantum (x y : Rat) : Bool :=
  !(rustRound x == rtp2 x) || !(rustRound y == rtp2 y)

namespace SSPMSerializer

/-- The body of the note loop of the encoder: timestamp, schema id 0, quantum
flag, then either two exact floats or two bytes, each the axis cast to `u8`
plus one. -/
def writeNote (w : WState) (note : Note) : Except PErr WState := do
  let w := BinaryWriter.write_u32 w note.millisecond
  let w := BinaryWriter.write_u8 w 0x00
  let quantum := isQuantum note.position.1 note.position.2
  let w := BinaryWriter.write_bool w quantum
  if quantum then
    let w := BinaryWriter.write_f32 w note.position.1
    .ok (BinaryWriter.write_f32 w note.position.2)
  else
    let bx ← u8AddOne (f32AsU8 note.position.1)
    let w := BinaryWriter.write_u8 w bx
    let byv ← u8AddOne (f32AsU8 note.position.2)
    .ok (BinaryWriter.write_u8 w byv)

def writeNotes : WState → List Note → Except PErr WState
  | w, [] => .ok w
  | w, n :: rest => do writeNotes (← writeNote w n) rest

def writeMappers : WState → List (List Nat) → WState
  | w, [] => w
  | w, s :: rest => writeMappers (BinaryWriter.write_string w s) rest

/-- Header and static metadata writes (serialize lines 82-98). -/
def writeHeaderMeta (w : WState) (map : Map) : WState :=
  let w := BinaryWriter.write_all w (rawL [0x53, 0x53, 0x2B, 0x6D])
  let w := BinaryWriter.write_all w (rawL [0x02, 0x00])
  let w := BinaryWriter.write_all w (rawL (List.replicate 4 0))
  let w := BinaryWriter.write_sha1 w (List.replicate 20 0)
  let w := BinaryWriter.write_u32 w map.length
  let w := BinaryWriter.write_u32 w map.notes.length
  let w := BinaryWriter.write_u32 w (map.notes.length + map.objects.length)
  let w := BinaryWriter.write_u8 w map.difficulty
  let w := BinaryWriter.write_u16 w 0
  let w := BinaryWriter.write_bool w map.audio.isSome
  let w := BinaryWriter.write_bool w (!map.cover.isEmpty)
  BinaryWriter.write_bool w false

/-- The string block: map id, map name, song name (title twice), mappers. -/
def writeStrings (w : WState) (map : Map) : WState :=
  let w := BinaryWriter.write_string w map.id
  let w := BinaryWriter.write_string w map.title
  let w := BinaryWriter.write_string w map.title
  let w := BinaryWriter.write_u16 w map.mappers.length
  writeMappers w map.mappers

/-- Custom data: one string field when a difficulty name is present, with the
recorded (offset, length) pair. -/
def writeCustomData (w : WState) (map : Map) : WState × Nat × Nat :=
  if map.difficulty_name.isEmpty then
    (BinaryWriter.write_u16 w 0, 0, 0)
  else
    let off := BinaryWriter.stream_position w
    let w := BinaryWriter.write_u16 w 1
    let w := BinaryWriter.write_string w difficultyNameKey
    let w := BinaryWriter.write_u8 w 0x09
    let w := BinaryWriter.write_string w map.difficulty_name
    (w, off, BinaryWriter.stream_position w - off)

def writeAudio (w : WState) (map : Map) : WState :=
  match map.audio with
  | some audio => BinaryWriter.write_all w (rawL audio)
  | none => w

def writeCover (w : WState) (map : Map) : WState × Nat × Nat :=
  if map.cover.isEmpty then (w, 0, 0)
  else
    let off := BinaryWriter.stream_position w
    let w := BinaryWriter.write_all w (rawL map.cover)
    (w, off, BinaryWriter.stream_position w - off)

/-- Schema table: a single entry, the reserved note schema with one Vec2 slot. -/
def writeDefs (w : WState) : WState :=
  let w := BinaryWriter.write_u8 w 1
  let w := BinaryWriter.write_string w sspNoteName
  BinaryWriter.write_all w (rawL [0x01, 0x07, 0x00])

/-- The ten back-patched offset-table slots, in write order. -/
def writeOffsets (w : WState)
    (v1 v2 v3 v4 v5 v6 v7 v8 v9 v10 : Nat) : WState :=
  BinaryWriter.write_u64 (BinaryWriter.write_u64 (BinaryWriter.write_u64
    (BinaryWriter.write_u64 (BinaryWriter.write_u64 (BinaryWriter.write_u64
      (BinaryWriter.write_u64 (BinaryWriter.write_u64 (BinaryWriter.write_u64
        (BinaryWriter.write_u64 w v1) v2) v3) v4) v5) v6) v7) v8) v9) v10

/-- SSPMSerializer::serialize.  Returns the final byte stream; sections are
written in source order with the offset table back-patched at the end. -/
def serialize (map : Map) : Except PErr (List SByte) := do
  let w : WState := ⟨[], 0⟩
  let w := writeHeaderMeta w map
  let dataOffset := BinaryWriter.stream_position w
  let w := BinaryWriter.write_all w (rawL (List.replicate 80 0))
  let w := writeStrings w map
  let (w, customDataOffset, customDataLength) := writeCustomData w map
  let audioOffset := BinaryWriter.stream_position w
  let w := writeAudio w map
  let audioLength := BinaryWriter.stream_position w - audioOffset
  let (w, coverOffset, coverLength) := writeCover w map
  let objectDefinitionOffset := BinaryWriter.stream_position w
  let w := writeDefs w
  let objectDefinitionLength := BinaryWriter.stream_position w - objectDefinitionOffset
  let objectDataOffset := BinaryWriter.stream_position w
  let w ← writeNotes w map.notes
  let objectDataLength := BinaryWriter.stream_position w - objectDataOffset
  let w := BinaryWriter.seekTo w dataOffset
  let w := writeOffsets w customDataOffset customDataLength audioOffset audioLength
    coverOffset coverLength objectDefinitionOffset objectDefinitionLength
    objectDataOffset objectDataLength
  let w := BinaryWriter.seekEnd w
  let w := BinaryWriter.write_string w exportSignature
  .ok w.data

/-!
SSPM decoder (SSPMSerializer::deserialize, src/maps/parser.rs lines 188-346)
and the per-kind field readers (parse_u8 .. parse_vec, lines 353-479).
-/

def parse_u8 (r : RState) : Except PErr (ObjectType × RState) :=
  (BinaryReader.read_u8 r).map fun p => (.U8 (some p.1), p.2)

def parse_u16 (r : RState) : Except PErr (ObjectType × RState) :=
  (BinaryReader.read_u16 r).map fun p => (.U16 (some p.1), p.2)

def parse_u32 (r : RState) : Except PErr (ObjectType × RState) :=
  (BinaryReader.read_u32 r).map fun p => (.U32 (some p.1), p.2)

def parse_u64 (r : RState) : Except PErr (ObjectType × RState) :=
  (BinaryReader.read_u64 r).map fun p => (.U64 (some p.1), p.2)

def parse_f32 (r : RState) : Except PErr (ObjectType × RState) :=
  (BinaryReader.read_f32 r).map fun p => (.F32 (some p.1), p.2)

def parse_f64 (r : RState) : Except PErr (ObjectType × RState) :=
  (BinaryReader.read_f64 r).map fun p => (.F64 (some p.1), p.2)

/-- SSPMSerializer::parse_vec2: the quantum flag selects between two exact
floats and two bytes, each byte reinterpreted as `(byte as f32) - 2.0`. -/
def parse_vec2 (r : RState) : Except PErr (ObjectType × RState) := do
  let (quantum, r) ← BinaryReader.read_bool r
  if quantum then
    let (x, r) ← BinaryReader.read_f32 r
    let (y, r) ← BinaryReader.read_f32 r
    .ok (.Vec2 (some (x, y)), r)
  else
    let (bx, r) ← BinaryReader.read_u8 r
    let (byv, r) ← BinaryReader.read_u8 r
    .ok (.Vec2 (some ((bx : Rat) - 2, (byv : Rat) - 2)), r)

def parse_buf (r : RState) : Except PErr (ObjectType × RState) := do
  let (lenBytes, r) ← BinaryReader.read_bytes 2 r
  let (buf, r) ← BinaryReader.read_bytes (natOfLE lenBytes) r
  .ok (.Buf (some buf), r)

def parse_long_buf (r : RState) : Except PErr (ObjectType × RState) := do
  let (lenBytes, r) ← BinaryReader.read_bytes 4 r
  let (buf, r) ← BinaryReader.read_bytes (natOfLE lenBytes) r
  .ok (.LongBuf (some buf), r)

def parse_string (r : RState) : Except PErr (ObjectType × RState) :=
  (BinaryReader.read_string r).map fun p => (.String (some p.1), p.2)

def parse_long_string (r : RState) : Except PErr (ObjectType × RState) :=
  (BinaryReader.read_long_string r).map fun p => (.LongString (some p.1), p.2)

/-- The per-slot dispatch shared by `parse_types` and `parse_definitions`
(both Rust functions contain the same match; `I64`, `Vec3` and `Vec` slots hit
the catch-all invalid-data arm). -/
def parse_types (object_type : ObjectType) (r : RState) : Except PErr (ObjectType × RState) :=
  match object_type with
  | .U8 _ => parse_u8 r
  | .U16 _ => parse_u16 r
  | .U32 _ => parse_u32 r
  | .U64 _ => parse_u64 r
  | .F32 _ => parse_f32 r
  | .F64 _ => parse_f64 r
  | .Vec2 _ => parse_vec2 r
  | .Buf _ => parse_buf r
  | .LongBuf _ => parse_long_buf r
  | .String _ => parse_string r
  | .LongString _ => parse_long_string r
  | _ => .error (.ioError .invalidData "")

def parseSlots : List ObjectType → RState → Except PErr (List ObjectType × RState)
  | [], r => .ok ([], r)
  | d :: rest, r => do
    let (v, r) ← parse_types d r
    let (vs, r) ← parseSlots rest r
    .ok (v :: vs, r)

/-- SSPMSerializer::parse_definitions: decode one value per schema slot in
declared order, producing the populated record. -/
def parse_definitions (marker : ObjectDefinition) (ms : Nat) (r : RState) :
    Except PErr (ObjectDefinition × RState) :=
  (parseSlots marker.definitions r).map fun p => (⟨marker.name, ms, p.1⟩, p.2)

end SSPMSerializer

namespace SSPMSerializer

/-- Positional lookup in the schema table (the model of the `HashMap` keyed by
the 0-based entry index). -/
def lookupDef (l : List (Nat × ObjectDefinition)) (k : Nat) : Option ObjectDefinition :=
  (l.find? (fun p => p.1 == k)).map (fun p => p.2)

def readTags : Nat → RState → Except PErr (List ObjectType × RState)
  | 0, r => .ok ([], r)
  | n + 1, r => do
    let (b, r) ← BinaryReader.read_u8 r
    let d ← ObjectType.from_sspm b
    let (rest, r) ← readTags n r
    .ok (d :: rest, r)

/-- The schema-table loop: per entry a name, an 8-bit field count, that many
type tags, then a mandatory zero byte; `assert_eq!(read_u8()?, 0x00)` aborts
the whole process (a panic, not a returned error) when the byte is non-zero. -/
def loopDefinitions :
    Nat → Nat → RState → List (Nat × ObjectDefinition) →
      Except PErr (List (Nat × ObjectDefinition) × RState)
  | 0, _, r, acc => .ok (acc, r)
  | count + 1, idx, r, acc => do
    let (name, r) ← BinaryReader.read_string r
    let (values, r) ← BinaryReader.read_u8 r
    let (defs, r) ← readTags values r
    let (term, r) ← BinaryReader.read_u8 r
    if term = 0 then
      loopDefinitions count (idx + 1) r (acc ++ [(idx, ⟨name, 0, defs⟩)])
    else
      .error (.panicked "assertion failed")

def readMappers : Nat → RState → Except PErr (List (List Nat) × RState)
  | 0, r => .ok ([], r)
  | n + 1, r => do
    let (s, r) ← BinaryReader.read_string r
    let (rest, r) ← readMappers n r
    .ok (s :: rest, r)

/-- Custom-data block: per field a name, a type tag resolved through
`from_sspm`, then a value of that type.  The `HashMap` is modelled as an
association list (duplicates irrelevant: the decoder discards the block). -/
def readCustomFields :
    Nat → RState → List (List Nat × ObjectType) →
      Except PErr (List (List Nat × ObjectType) × RState)
  | 0, r, acc => .ok (acc, r)
  | n + 1, r, acc => do
    let (name, r) ← BinaryReader.read_string r
    let (tagByte, r) ← BinaryReader.read_u8 r
    let dataType ← ObjectType.from_sspm tagByte
    let (value, r) ← parse_types dataType r
    readCustomFields n r (acc ++ [(name, value)])

/-- The record-stream loop: while the position is below the declared end,
read a timestamp and a schema-id byte, look the id up
(`object_definitions[&definition]` panics on a missing key), decode the
fields, and dispatch on the record name.  The fuel argument only bounds the
recursion; every successful iteration advances the position by at least five,
so fuel `data.length + 1` is never exhausted. -/
def loopObjects :
    Nat → List (Nat × ObjectDefinition) → Nat → RState → List Note →
      List ObjectDefinition → Except PErr (List Note × List ObjectDefinition × RState)
  | 0, _, _, _, _, _ => .error (.ioError .otherError "fuel exhausted")
  | fuel + 1, defs, endPos, r, notes, objs =>
    if r.pos < endPos then do
      let (ms, r) ← BinaryReader.read_u32 r
      let (definition, r) ← BinaryReader.read_u8 r
      match lookupDef defs definition with
      | none => .error (.panicked "key not found")
      | some marker => do
        let (object, r) ← parse_definitions marker ms r
        if object.name = sspNoteName then do
          let note ← Note.from_definition object
          loopObjects fuel defs endPos r (notes ++ [note]) objs
        else
          loopObjects fuel defs endPos r notes (objs ++ [object])
    else .ok (notes, objs, r)

/-- The varying components the decoder extracts from the stream before
assembling the final `Map`. -/
structure Parts where
  mapId : List Nat
  millisecond : Nat
  songName : List Nat
  mappers : List (List Nat)
  audioBuf : List Nat
  coverBuf : List Nat
  notes : List Note
  objects : List ObjectDefinition

def deserializeCore (d : List SByte) : Except PErr Parts := do
  let (header, r) ← BinaryReader.read_bytes 10 (⟨d, 0⟩ : RState)
  if header.take 4 ≠ [0x53, 0x53, 0x2B, 0x6D] then
    .error (.ioError .invalidData "Incorrect file signature")
  else if (header.drop 4).take 2 ≠ [0x02, 0x00] then
    .error (.ioError .invalidData "Unsupported SSPM version")
  else do
    let (_hash, r) ← BinaryReader.read_sha1 r
    let (millisecond, r) ← BinaryReader.read_u32 r
    let (_noteCount, r) ← BinaryReader.read_u32 r
    let (_objectCount, r) ← BinaryReader.read_u32 r
    let (_difficulty, r) ← BinaryReader.read_u8 r
    let (_starRating, r) ← BinaryReader.read_u16 r
    let (hasAudio, r) ← BinaryReader.read_bool r
    let (hasCover, r) ← BinaryReader.read_bool r
    let (_hasMod, r) ← BinaryReader.read_bool r
    let (_customDataOffset, r) ← BinaryReader.read_u64 r
    let (_customDataLength, r) ← BinaryReader.read_u64 r
    let (audioDataOffset, r) ← BinaryReader.read_u64 r
    let (audioDataLength, r) ← BinaryReader.read_u64 r
    let (coverDataOffset, r) ← BinaryReader.read_u64 r
    let (coverDataLength, r) ← BinaryReader.read_u64 r
    let (objectDefinitionOffset, r) ← BinaryReader.read_u64 r
    let (_objectDefinitionLength, r) ← BinaryReader.read_u64 r
    let (objectDataOffset, r) ← BinaryReader.read_u64 r
    let (objectDataLength, r) ← BinaryReader.read_u64 r
    let (mapId, r) ← BinaryReader.read_string r
    let (_mapName, r) ← BinaryReader.read_string r
    let (songName, r) ← BinaryReader.read_string r
    let (mappersCount, r) ← BinaryReader.read_u16 r
    let (mappers, r) ← readMappers mappersCount r
    let (customDataFields, r) ← BinaryReader.read_u16 r
    let (_customData, r) ← readCustomFields customDataFields r []
    let (audioBuf, r) ←
      if hasAudio then
        BinaryReader.read_bytes audioDataLength (BinaryReader.seekStart audioDataOffset r)
      else
        .ok (List.replicate audioDataLength 0, r)
    let (coverBuf, r) ←
      if hasCover then
        BinaryReader.read_bytes coverDataLength (BinaryReader.seekStart coverDataOffset r)
      else
        .ok (List.replicate coverDataLength 0, r)
    let r := BinaryReader.seekStart objectDefinitionOffset r
    let (objectCount, r) ← BinaryReader.read_u8 r
    let (objectDefinitions, r) ← loopDefinitions objectCount 0 r []
    let r := BinaryReader.seekStart objectDataOffset r
    let objectSectionEnd := BinaryReader.stream_position r + objectDataLength
    let (notes, objects, _r) ←
      loopObjects (d.length + 1) objectDefinitions objectSectionEnd r [] []
    .ok ⟨mapId, millisecond, songName, mappers, audioBuf, coverBuf, notes, objects⟩

/-- SSPMSerializer::deserialize: runs the decode pipeline, then assembles the
final `Map` exactly as the Rust `Ok(Map { .. })` expression does: `artists`
is the empty vector, `difficulty` is 0, `difficulty_name` is the empty
string, and the audio source is `None` exactly when the audio buffer is
empty. -/
def deserialize (d : List SByte) : Except PErr Map :=
  (deserializeCore d).map fun p =>
    { id := p.mapId
      length := p.millisecond
      title := p.songName
      artists := []
      difficulty := 0
      difficulty_name := []
      mappers := p.mappers
      audio := if p.audioBuf.isEmpty then none else some p.audioBuf
      cover := p.coverBuf
      notes := p.notes
      objects := p.objects
      format := .SSPM }

end SSPMSerializer

/-!
PHXM decoder (PHXMParser::deserialize, src/maps/parser.rs lines 498-598).
The zip archive and the serde_json metadata parse are external library
behaviour; the archive is modelled as its named entries, with a missing or
unparsable entry an error, exactly as `by_name(..)?` / `serde_json::from_str`
fail.
-/

structure PHXMMetadata where
  id : List Nat
  has_audio : Bool
  has_cover : Bool
  has_video : Bool
  audio_extension : List Nat
  artist : List Nat
  title : List Nat
  mappers : List (List Nat)
  difficulty : Nat
  difficulty_name : List Nat
  notes_count : Nat

structure PHXMArchive where
  metadataEntry : Option PHXMMetadata
  objectsEntry : Option (List SByte)
  audioEntry : Option (List Nat)
  coverEntry : Option (List Nat)
  videoEntry : Option (List Nat)

namespace PHXMParser

/-- The fixed-shape note loop of the PHXM binary note stream: timestamp,
quantum flag, then either two exact floats or two bytes each decremented by
one (`read_u8()? - 1`, an unsigned subtraction that underflows on a zero
byte). -/
def loopNotes : Nat → RState → List Note → Except PErr (List Note × RState)
  | 0, r, acc => .ok (acc, r)
  | n + 1, r, acc => do
    let (millisecond, r) ← BinaryReader.read_u32 r
    let (quantum, r) ← BinaryReader.read_bool r
    if quantum then
      let (x, r) ← BinaryReader.read_f32 r
      let (y, r) ← BinaryReader.read_f32 r
      loopNotes n r (acc ++ [⟨millisecond, (x, y)⟩])
    else
      let (bxRaw, r) ← BinaryReader.read_u8 r
      let bx ← u8SubOne bxRaw
      let (byRaw, r) ← BinaryReader.read_u8 r
      let byv ← u8SubOne byRaw
      loopNotes n r (acc ++ [⟨millisecond, ((bx : Rat), (byv : Rat))⟩])

/-- The varying components the PHXM decoder extracts before assembling the
final `Map`. -/
structure Parts where
  metadata : PHXMMetadata
  audioBuf : List Nat
  coverBuf : List Nat
  notes : List Note

def deserializeCore (arch : PHXMArchive) : Except PErr Parts := do
  let metadata ← match arch.metadataEntry with
    | some m => .ok m
    | none => .error (.ioError .invalidData "metadata.json missing or invalid")
  let objectsData ← match arch.objectsEntry with
    | some o => .ok o
    | none => .error (.ioError .invalidData "objects.phxmo missing")
  let audioBuf ← if metadata.has_audio then
      match arch.audioEntry with
      | some a => .ok a
      | none => .error (.ioError .invalidData "audio entry missing")
    else .ok []
  let coverBuf ← if metadata.has_cover then
      match arch.coverEntry with
      | some c => .ok c
      | none => .error (.ioError .invalidData "cover.png missing")
    else .ok []
  let _videoBuf ← if metadata.has_video then
      match arch.videoEntry with
      | some v => .ok v
      | none => .error (.ioError .invalidData "video.mp4 missing")
    else .ok ([] : List Nat)
  let parser : RState := ⟨objectsData, 0⟩
  let (_typeCount, parser) ← BinaryReader.read_u32 parser
  let (noteCount, parser) ← BinaryReader.read_u32 parser
  let (notes, _r) ← loopNotes noteCount parser []
  .ok ⟨metadata, audioBuf, coverBuf, notes⟩

/-- PHXMParser::deserialize: the final `Map` has `objects` always the empty
vector and `length` the last decoded note timestamp (or 0 with no notes). -/
def deserialize (arch : PHXMArchive) : Except PErr Map :=
  (deserializeCore arch).map fun p =>
    { id := p.metadata.id
      length := match p.notes.getLast? with
        | none => 0
        | some n => n.millisecond
      title := p.metadata.title
      artists := [p.metadata.artist]
      difficulty := p.metadata.difficulty
      difficulty_name := p.metadata.difficulty_name
      mappers := p.metadata.mappers
      audio := if p.audioBuf.isEmpty then none else some p.audioBuf
      cover := p.coverBuf
      notes := p.notes
      objects := []
      format := .PHXM }

end PHXMParser

/-!
Concrete well-formed inputs used by the witnesses below.
-/

/-- A minimal valid SSPM stream: empty strings, no audio/cover, one schema
entry `ssp_note` with a single Vec2 slot, and one compact record at
millisecond 1000 with axis bytes 4 and 5. -/
def okBytes : List Nat :=
  [0x53, 0x53, 0x2B, 0x6D, 0x02, 0x00, 0, 0, 0, 0] ++
  List.replicate 20 0 ++
  [0, 0, 0, 0] ++ [1, 0, 0, 0] ++ [1, 0, 0, 0] ++
  [7] ++ [0, 0] ++ [0, 0, 0] ++
  List.replicate 16 0 ++
  List.replicate 16 0 ++
  List.replicate 16 0 ++
  ([138, 0, 0, 0, 0, 0, 0, 0] ++ [14, 0, 0, 0, 0, 0, 0, 0]) ++
  ([152, 0, 0, 0, 0, 0, 0, 0] ++ [8, 0, 0, 0, 0, 0, 0, 0]) ++
  [0, 0] ++ [0, 0] ++ [0, 0] ++ [0, 0] ++ [0, 0] ++
  ([1] ++ [8, 0] ++ sspNoteName ++ [1] ++ [7] ++ [0]) ++
  ([232, 3, 0, 0] ++ [0] ++ [0] ++ [4, 5])

def okStream : List SByte := rawL okBytes

def okMetadata : PHXMMetadata :=
  ⟨[0x69], false, false, false, [], [0x61], [0x74], [[0x6D]], 2, [0x65], 1⟩

/-- A minimal PHXM archive: metadata with no media, and a note stream with one
compact note at millisecond 10000 with axis bytes 3 and 4. -/
def okArchive : PHXMArchive :=
  ⟨some okMetadata,
   some (rawL ([0, 0, 0, 0] ++ [1, 0, 0, 0] ++ [16, 39, 0, 0] ++ [0] ++ [3, 4])),
   none, none, none⟩

/-!
Generic read-step lemmas used to symbolically execute the decoder over a
stream given as explicit concatenated segments.
-/

theorem drop_shift {d : List SByte} {p n : Nat} {s rest : List SByte}
    (hseg : s.length = n) (hdrop : d.drop p = s ++ rest) :
    d.drop (p + n) = rest := by
  have h := congrArg (List.drop n) hdrop
  rw [List.drop_drop] at h
  rw [h, ← hseg, List.drop_left]

theorem read_exact_spec {d : List SByte} {p n : Nat} {s rest : List SByte}
    (hseg : s.length = n) (hp : p ≤ d.length) (hdrop : d.drop p = s ++ rest) :
    BinaryReader.read_exact n ⟨d, p⟩ = .ok (s, ⟨d, p + n⟩) := by
  have hlen : d.length - p = s.length + rest.length := by
    rw [← List.length_drop, hdrop, List.length_append]
  unfold BinaryReader.read_exact
  have hcond : p + n ≤ d.length := by omega
  simp only [hcond, if_pos]
  simp only [hdrop, ← hseg, List.take_left]

theorem mapM_asRaw_loop (bs : List Nat) (acc : List Nat) :
    List.mapM.loop BinaryReader.asRaw (rawL bs) acc = .ok (acc.reverse ++ bs) := by
  induction bs generalizing acc with
  | nil => simp [rawL, List.mapM.loop, pure, Except.pure]
  | cons b rest ih =>
    simp only [rawL, List.map_cons, List.mapM.loop, BinaryReader.asRaw, bind, Except.bind]
    rw [show List.map SByte.raw rest = rawL rest from rfl, ih]
    simp

theorem mapM_asRaw (bs : List Nat) : (rawL bs).mapM BinaryReader.asRaw = .ok bs := by
  show List.mapM.loop _ _ [] = _
  rw [mapM_asRaw_loop]
  simp

theorem read_bytes_spec {d : List SByte} {p n : Nat} {b : List Nat} {rest : List SByte}
    (hbs : b.length = n) (hp : p ≤ d.length) (hdrop : d.drop p = rawL b ++ rest) :
    BinaryReader.read_bytes n ⟨d, p⟩ = .ok (b, ⟨d, p + n⟩) := by
  have hseg : (rawL b).length = n := by simpa [rawL] using hbs
  unfold BinaryReader.read_bytes
  rw [read_exact_spec hseg hp hdrop]
  simp only [bind, Except.bind, mapM_asRaw]

theorem read_u8_spec {d : List SByte} {p : Nat} {b : Nat} {rest : List SByte}
    (hp : p ≤ d.length) (hdrop : d.drop p = SByte.raw b :: rest) :
    BinaryReader.read_u8 ⟨d, p⟩ = .ok (b, ⟨d, p + 1⟩) := by
  unfold BinaryReader.read_u8
  rw [read_bytes_spec (n := 1) (b := [b]) (by rfl) hp (by simpa [rawL] using hdrop)]
  simp [natOfLE, Except.map]

theorem read_u16_spec {d : List SByte} {p : Nat} {b0 b1 : Nat} {rest : List SByte}
    (hp : p ≤ d.length) (hdrop : d.drop p = rawL [b0, b1] ++ rest) :
    BinaryReader.read_u16 ⟨d, p⟩ = .ok (b0 + 256 * b1, ⟨d, p + 2⟩) := by
  unfold BinaryReader.read_u16
  rw [read_bytes_spec (n := 2) (b := [b0, b1]) (by rfl) hp hdrop]
  simp [natOfLE, Except.map]

theorem read_u32_spec {d : List SByte} {p : Nat} {bs : List Nat} {rest : List SByte}
    (hbs : bs.length = 4) (hp : p ≤ d.length) (hdrop : d.drop p = rawL bs ++ rest) :
    BinaryReader.read_u32 ⟨d, p⟩ = .ok (natOfLE bs, ⟨d, p + 4⟩) := by
  unfold BinaryReader.read_u32
  rw [read_bytes_spec hbs hp hdrop]
  simp [Except.map]

theorem read_u64_spec {d : List SByte} {p : Nat} {bs : List Nat} {rest : List SByte}
    (hbs : bs.length = 8) (hp : p ≤ d.length) (hdrop : d.drop p = rawL bs ++ rest) :
    BinaryReader.read_u64 ⟨d, p⟩ = .ok (natOfLE bs, ⟨d, p + 8⟩) := by
  unfold BinaryReader.read_u64
  rw [read_bytes_spec hbs hp hdrop]
  simp [Except.map]

theorem read_bool_spec {d : List SByte} {p : Nat} {b : Nat} {rest : List SByte}
    (hp : p ≤ d.length) (hdrop : d.drop p = SByte.raw b :: rest) :
    BinaryReader.read_bool ⟨d, p⟩ = .ok (b == 1, ⟨d, p + 1⟩) := by
  unfold BinaryReader.read_bool
  rw [read_bytes_spec (n := 1) (b := [b]) (by rfl) hp (by simpa [rawL] using hdrop)]
  simp [natOfLE, Except.map]

theorem read_f32_spec {d : List SByte} {p : Nat} {q : Rat} {rest : List SByte}
    (hp : p ≤ d.length)
    (hdrop : d.drop p = [SByte.flv q, .fcont, .fcont, .fcont] ++ rest) :
    BinaryReader.read_f32 ⟨d, p⟩ = .ok (q, ⟨d, p + 4⟩) := by
  unfold BinaryReader.read_f32
  rw [read_exact_spec (n := 4) (s := [SByte.flv q, .fcont, .fcont, .fcont]) (by rfl) hp hdrop]
  simp [bind, Except.bind]

theorem read_sha1_spec {d : List SByte} {p : Nat} {bs : List Nat} {rest : List SByte}
    (hbs : bs.length = 20) (hp : p ≤ d.length) (hdrop : d.drop p = rawL bs ++ rest) :
    BinaryReader.read_sha1 ⟨d, p⟩ = .ok (bs, ⟨d, p + 20⟩) := by
  unfold BinaryReader.read_sha1
  exact read_bytes_spec hbs hp hdrop

theorem read_string_spec {d : List SByte} {p : Nat} {s : List Nat} {rest : List SByte}
    (hs : s.length < 65536) (hvalid : isValidUtf8 s = true) (hp : p ≤ d.length)
    (hdrop : d.drop p = rawL (s.length % 256 :: s.length / 256 :: s) ++ rest) :
    BinaryReader.read_string ⟨d, p⟩ = .ok (s, ⟨d, p + 2 + s.length⟩) := by
  unfold BinaryReader.read_string
  have hdrop2 : d.drop p = rawL [s.length % 256, s.length / 256] ++ (rawL s ++ rest) := by
    simpa [rawL] using hdrop
  rw [read_u16_spec hp hdrop2]
  have hval : s.length % 256 + 256 * (s.length / 256) = s.length := by omega
  have hlen : d.length - p = 2 + (s.length + rest.length) := by
    have h := congrArg List.length hdrop2
    rw [List.length_drop] at h
    simp only [List.length_append, rawL, List.length_map, List.length_cons,
      List.length_nil] at h
    omega
  have hp2 : p + 2 ≤ d.length := by omega
  simp only [bind, Except.bind, hval]
  rw [read_bytes_spec (n := s.length) (b := s) rfl hp2
    (drop_shift (n := 2) (s := rawL [s.length % 256, s.length / 256]) (by simp [rawL]) hdrop2)]
  simp only [hvalid, if_pos]

/-- C10: every successful SSPM deserialize produces a Map whose `artists` is
the empty list, whose `difficulty` is 0 and whose `difficulty_name` is the
empty string, regardless of the difficulty byte and custom-data block of the
stream: the parsed custom data never reaches the `Map`. -/
theorem sspm_deserialize_constant_fields (d : List SByte) (m : Map)
    (h : SSPMSerializer.deserialize d = Except.ok m) :
    m.artists = [] ∧ m.difficulty = 0 ∧ m.difficulty_name = [] := by
  unfold SSPMSerializer.deserialize at h
  cases hc : SSPMSerializer.deserializeCore d with
  | error e => rw [hc] at h; exact absurd h (by simp [Except.map])
  | ok p =>
    rw [hc] at h
    simp only [Except.map] at h
    cases h
    exact ⟨rfl, rfl, rfl⟩

set_option maxRecDepth 100000 in
theorem sspm_deserialize_constant_fields_witness :
    ∃ m, SSPMSerializer.deserialize okStream = Except.ok m ∧
      m.artists = [] ∧ m.difficulty = 0 ∧ m.difficulty_name = [] :=
  ⟨_, rfl, sspm_deserialize_constant_fields okStream _ rfl⟩

/-- C7: every successfully PHXM-decoded archive yields a Map with an empty
generic-records list and with `length` equal to the last decoded note
timestamp, or 0 when there are no notes. -/
theorem phxm_objects_empty_length_last (arch : PHXMArchive) (m : Map)
    (h : PHXMParser.deserialize arch = Except.ok m) :
    m.objects = [] ∧
      m.length = (match m.notes.getLast? with
        | none => 0
        | some n => n.millisecond) := by
  unfold PHXMParser.deserialize at h
  cases hc : PHXMParser.deserializeCore arch with
  | error e => rw [hc] at h; exact absurd h (by simp [Except.map])
  | ok p =>
    rw [hc] at h
    simp only [Except.map] at h
    cases h
    exact ⟨rfl, rfl⟩

set_option maxRecDepth 100000 in
theorem phxm_objects_empty_length_last_witness :
    ∃ m, PHXMParser.deserialize okArchive = Except.ok m ∧
      m.objects = [] ∧
      m.length = (match m.notes.getLast? with
        | none => 0
        | some n => n.millisecond) :=
  ⟨_, rfl, phxm_objects_empty_length_last okArchive _ rfl⟩

/-- C4 counterexample: a decoded record carrying the reserved note name and an
additional slot beyond the single Vec2 slot is nevertheless projected into a
Note (the claim says any such shape is a decode error).  Such a record is
reachable: a file may register `ssp_note` with two field slots. -/
def c4ExtraSlots : ObjectDefinition :=
  ⟨sspNoteName, 5, [ObjectType.Vec2 (some (1, 2)), ObjectType.U8 (some 3)]⟩

theorem note_from_definition_extra_slots_cex :
    Note.from_definition c4ExtraSlots = Except.ok ⟨5, (1, 2)⟩ := by
  rfl

/-- C4 (amended): a Note is produced exactly when the record has at least one
field slot and the FIRST slot is a populated 2D vector (additional slots are
ignored, not rejected); a record with no slots or whose first slot is not a
populated 2D vector is an invalid-data decode error. -/
theorem note_from_definition_first_slot (obj : ObjectDefinition) :
    (∀ v rest, obj.definitions = ObjectType.Vec2 (some v) :: rest →
      Note.from_definition obj = Except.ok ⟨obj.millisecond, v⟩) ∧
    ((∀ v rest, obj.definitions ≠ ObjectType.Vec2 (some v) :: rest) →
      ∃ msg, Note.from_definition obj = Except.error (.ioError .invalidData msg)) := by
  constructor
  · intro v rest h
    unfold Note.from_definition
    rw [h]
    simp
  · intro h
    match hd : obj.definitions with
    | [] =>
      exact ⟨"Object definition has no types", by unfold Note.from_definition; rw [hd]; simp⟩
    | x :: rest =>
      refine ⟨"Object could not be parsed as Note", ?_⟩
      have hx : ∀ v, x ≠ ObjectType.Vec2 (some v) := by
        intro v hv
        exact h v rest (by rw [hd, hv])
      unfold Note.from_definition
      rw [hd]
      simp only [List.length_cons, List.head?_cons]
      cases x with
      | Vec2 v =>
        cases v with
        | none => simp
        | some val => exact absurd rfl (hx val)
      | U8 v => simp
      | U16 v => simp
      | U32 v => simp
      | U64 v => simp
      | F32 v => simp
      | F64 v => simp
      | Buf v => simp
      | String v => simp
      | LongBuf v => simp
      | LongString v => simp
      | I64 v => simp
      | Vec3 v => simp
      | Vec v => simp

theorem note_from_definition_first_slot_witness :
    ∃ msg, Note.from_definition ⟨sspNoteName, 7, []⟩ =
      Except.error (.ioError .invalidData msg) :=
  (note_from_definition_first_slot ⟨sspNoteName, 7, []⟩).2
    (fun v rest h => List.noConfusion h)

theorem leBytes_length (n v : Nat) : (leBytes n v).length = n := by
  induction n generalizing v with
  | zero => rfl
  | succ n ih => simp [leBytes, ih]

theorem natOfLE_leBytes (n v : Nat) : natOfLE (leBytes n v) = v % 256 ^ n := by
  induction n generalizing v with
  | zero => simp [leBytes, natOfLE, Nat.mod_one]
  | succ n ih =>
    simp only [leBytes, natOfLE, ih]
    rw [Nat.div_mod_eq_mod_mul_div]
    have hdvd : (256 : ℕ) ∣ 256 * 256 ^ n := Dvd.intro _ rfl
    rw [← Nat.mod_mod_of_dvd v hdvd]
    rw [pow_succ, mul_comm ((256 : ℕ) ^ n) 256]
    omega

theorem listOverwrite_append (d l : List SByte) : listOverwrite d d.length l = d ++ l := by
  unfold listOverwrite
  simp [List.drop_eq_nil_of_le]

theorem write_all_append (w : WState) (l : List SByte) (hpos : w.pos = w.data.length) :
    BinaryWriter.write_all w l = ⟨w.data ++ l, w.pos + l.length⟩ := by
  unfold BinaryWriter.write_all
  rw [hpos, listOverwrite_append]

/-- C9: `BinaryWriter::write_string` writes a 16-bit little-endian length
prefix holding `len % 2^16` followed by ALL the payload bytes; the prefix is
the exact byte length precisely when the length is below `2^16`, and
analogously `write_long_string` truncates the prefix at `2^32`. -/
theorem write_string_length_field (w : WState) (s : List Nat)
    (hpos : w.pos = w.data.length) :
    (BinaryWriter.write_string w s).data
        = w.data ++ rawL (leBytes 2 s.length) ++ rawL s ∧
    natOfLE (leBytes 2 s.length) = s.length % 65536 ∧
    (s.length < 65536 → natOfLE (leBytes 2 s.length) = s.length) ∧
    (BinaryWriter.write_long_string w s).data
        = w.data ++ rawL (leBytes 4 s.length) ++ rawL s ∧
    natOfLE (leBytes 4 s.length) = s.length % 4294967296 ∧
    (s.length < 4294967296 → natOfLE (leBytes 4 s.length) = s.length) := by
  have hshort : (BinaryWriter.write_string w s).data
      = w.data ++ rawL (leBytes 2 s.length) ++ rawL s := by
    unfold BinaryWriter.write_string
    rw [write_all_append w _ hpos]
    rw [write_all_append ⟨w.data ++ rawL (leBytes 2 s.length), w.pos + (rawL (leBytes 2 s.length)).length⟩
      (rawL s) (by simp [hpos])]
  have hlong : (BinaryWriter.write_long_string w s).data
      = w.data ++ rawL (leBytes 4 s.length) ++ rawL s := by
    unfold BinaryWriter.write_long_string
    rw [write_all_append w _ hpos]
    rw [write_all_append ⟨w.data ++ rawL (leBytes 4 s.length), w.pos + (rawL (leBytes 4 s.length)).length⟩
      (rawL s) (by simp [hpos])]
  have h16 : natOfLE (leBytes 2 s.length) = s.length % 65536 := by
    rw [natOfLE_leBytes]; norm_num
  have h32 : natOfLE (leBytes 4 s.length) = s.length % 4294967296 := by
    rw [natOfLE_leBytes]; norm_num
  refine ⟨hshort, h16, fun h => ?_, hlong, h32, fun h => ?_⟩
  · rw [h16]; omega
  · rw [h32]; omega

theorem write_string_length_field_witness :
    (BinaryWriter.write_string ⟨[], 0⟩ [0x61]).data
        = rawL (leBytes 2 1) ++ rawL [0x61] ∧
    natOfLE (leBytes 2 1) = 1 :=
  ⟨by simpa using (write_string_length_field ⟨[], 0⟩ [0x61] rfl).1,
   (write_string_length_field ⟨[], 0⟩ [0x61] rfl).2.2.1 (by norm_num)⟩

/-- C8: in PHXM note decoding, a compact axis byte of `0x00` underflows the
`byte - 1` subtraction, aborting with a panic (release builds wrap to 255)
rather than a structured io error; for every axis byte at least 1 the decoded
axis value is the byte minus one, as a float. -/
theorem phxm_compact_axis_decode (d : List SByte) (p : Nat) (ms4 : List Nat)
    (bx byv : Nat) (rest : List SByte) (n : Nat) (acc : List Note)
    (hms : ms4.length = 4) (hp : p ≤ d.length)
    (hdrop : d.drop p = rawL ms4 ++ rawL [0, bx, byv] ++ rest) :
    (bx = 0 → PHXMParser.loopNotes (n + 1) ⟨d, p⟩ acc =
      .error (.panicked "attempt to subtract with overflow")) ∧
    (1 ≤ bx → byv = 0 → PHXMParser.loopNotes (n + 1) ⟨d, p⟩ acc =
      .error (.panicked "attempt to subtract with overflow")) ∧
    (1 ≤ bx → 1 ≤ byv → PHXMParser.loopNotes (n + 1) ⟨d, p⟩ acc =
      PHXMParser.loopNotes n ⟨d, p + 7⟩
        (acc ++ [⟨natOfLE ms4, (((bx - 1 : Nat) : Rat), ((byv - 1 : Nat) : Rat))⟩])) := by
  have hdropA : d.drop p = rawL ms4 ++ (rawL [0, bx, byv] ++ rest) := by
    rw [hdrop, List.append_assoc]
  have hlen : d.length - p = 7 + rest.length := by
    have h := congrArg List.length hdropA
    rw [List.length_drop] at h
    simp only [List.length_append, rawL, List.length_map, hms, List.length_cons,
      List.length_nil] at h
    omega
  have hmsL : (rawL ms4).length = 4 := by simp [rawL, hms]
  have hd4 : d.drop (p + 4) = SByte.raw 0 :: (rawL [bx, byv] ++ rest) := by
    have := drop_shift (n := 4) hmsL hdropA
    simpa [rawL] using this
  have hd5 : d.drop (p + 4 + 1) = SByte.raw bx :: (rawL [byv] ++ rest) := by
    have := drop_shift (n := 1) (s := [SByte.raw 0]) rfl hd4
    simpa [rawL] using this
  have hd6 : d.drop (p + 4 + 1 + 1) = SByte.raw byv :: rest := by
    have := drop_shift (n := 1) (s := [SByte.raw bx]) rfl hd5
    simpa [rawL] using this
  have hstep : PHXMParser.loopNotes (n + 1) ⟨d, p⟩ acc =
      Except.bind (u8SubOne bx) (fun bxv =>
        Except.bind (u8SubOne byv) (fun byvv =>
          PHXMParser.loopNotes n ⟨d, p + 4 + 1 + 1 + 1⟩
            (acc ++ [⟨natOfLE ms4, ((bxv : Rat), (byvv : Rat))⟩]))) := by
    unfold PHXMParser.loopNotes
    rw [read_u32_spec hms hp hdropA]
    simp only [bind, Except.bind]
    rw [read_bool_spec (by omega) hd4]
    simp only [bind, Except.bind, Nat.reduceBEq, Bool.false_eq_true, if_false]
    rw [read_u8_spec (by omega) hd5]
    simp only [bind, Except.bind]
    cases hbx : u8SubOne bx with
    | error e => rfl
    | ok bxv =>
      simp only [bind, Except.bind]
      rw [read_u8_spec (by omega) hd6]
      simp only [bind, Except.bind]
      cases hby : u8SubOne byv with
      | error e => rfl
      | ok byvv =>
        simp only [PHXMParser.loopNotes]
        cases n with
        | zero => rfl
        | succ m =>
          simp only [PHXMParser.loopNotes]
          rfl
  refine ⟨?_, ?_, ?_⟩
  · intro hbx0
    rw [hstep, hbx0]
    rfl
  · intro hbx1 hby0
    rw [hstep, hby0]
    have : u8SubOne bx = .ok (bx - 1) := by unfold u8SubOne; rw [if_neg (by omega)]
    rw [this]
    rfl
  · intro hbx1 hby1
    rw [hstep]
    have h1 : u8SubOne bx = .ok (bx - 1) := by unfold u8SubOne; rw [if_neg (by omega)]
    have h2 : u8SubOne byv = .ok (byv - 1) := by unfold u8SubOne; rw [if_neg (by omega)]
    rw [h1, h2]
    simp only [Except.bind]

theorem phxm_compact_axis_decode_witness :
    (rawL [0, 0, 0, 0, 0, 2, 1]).drop 0 = rawL [0, 0, 0, 0] ++ rawL [0, 2, 1] ++ [] ∧
    PHXMParser.loopNotes 1 ⟨rawL [0, 0, 0, 0, 0, 2, 1], 0⟩ [] =
      PHXMParser.loopNotes 0 ⟨rawL [0, 0, 0, 0, 0, 2, 1], 0 + 7⟩
        ([] ++ [⟨natOfLE [0, 0, 0, 0], (((2 - 1 : Nat) : Rat), ((1 - 1 : Nat) : Rat))⟩]) :=
  ⟨by simp [rawL],
   (phxm_compact_axis_decode (rawL [0, 0, 0, 0, 0, 2, 1]) 0 [0, 0, 0, 0] 2 1 [] 0 []
      rfl (by simp [rawL]) (by simp [rawL])).2.2 (by norm_num) (by norm_num)⟩

/-- C5: while decoding one schema-table entry, a non-zero byte where the
mandatory `0x00` terminator is expected makes the `assert_eq!` abort the
whole process with a panic, not a structured error value returned to the
caller. -/
theorem schema_terminator_assert_aborts (d : List SByte) (p : Nat)
    (name : List Nat) (values : Nat) (tags : List ObjectType) (term : Nat)
    (r1 r2 r3 r4 : RState) (count idx : Nat) (acc : List (Nat × ObjectDefinition))
    (h1 : BinaryReader.read_string ⟨d, p⟩ = .ok (name, r1))
    (h2 : BinaryReader.read_u8 r1 = .ok (values, r2))
    (h3 : SSPMSerializer.readTags values r2 = .ok (tags, r3))
    (h4 : BinaryReader.read_u8 r3 = .ok (term, r4))
    (hterm : term ≠ 0) :
    SSPMSerializer.loopDefinitions (count + 1) idx ⟨d, p⟩ acc =
      .error (.panicked "assertion failed") := by
  unfold SSPMSerializer.loopDefinitions
  rw [h1]
  simp only [bind, Except.bind]
  rw [h2]
  simp only [bind, Except.bind]
  rw [h3]
  simp only [bind, Except.bind]
  rw [h4]
  simp only [bind, Except.bind]
  rw [if_neg hterm]

theorem schema_terminator_assert_aborts_witness :
    BinaryReader.read_string ⟨rawL [0, 0, 0, 5], 0⟩ = .ok ([], ⟨rawL [0, 0, 0, 5], 2⟩) ∧
    SSPMSerializer.loopDefinitions 1 0 ⟨rawL [0, 0, 0, 5], 0⟩ [] =
      .error (.panicked "assertion failed") :=
  ⟨rfl,
   schema_terminator_assert_aborts (rawL [0, 0, 0, 5]) 0 [] 0 [] 5
     ⟨rawL [0, 0, 0, 5], 2⟩ ⟨rawL [0, 0, 0, 5], 3⟩ ⟨rawL [0, 0, 0, 5], 3⟩
     ⟨rawL [0, 0, 0, 5], 4⟩ 0 0 [] rfl rfl rfl rfl (by norm_num)⟩

/-- C2 (amended): a record-stream record whose schema-id byte is not a key of
the decoded schema table makes `object_definitions[&definition]` abort with a
panic; no bytes are skipped and parsing never continues past that record, but
no InvalidEncoding error value is returned to the caller either. -/
theorem unknown_schema_id_aborts (fuel : Nat) (defs : List (Nat × ObjectDefinition))
    (endPos : Nat) (r r1 r2 : RState) (ms defId : Nat)
    (notes : List Note) (objs : List ObjectDefinition)
    (hlt : r.pos < endPos)
    (h1 : BinaryReader.read_u32 r = .ok (ms, r1))
    (h2 : BinaryReader.read_u8 r1 = .ok (defId, r2))
    (hmiss : SSPMSerializer.lookupDef defs defId = none) :
    SSPMSerializer.loopObjects (fuel + 1) defs endPos r notes objs =
      .error (.panicked "key not found") := by
  unfold SSPMSerializer.loopObjects
  rw [if_pos hlt]
  rw [h1]
  simp only [bind, Except.bind]
  rw [h2]
  simp only [bind, Except.bind]
  rw [hmiss]

theorem unknown_schema_id_aborts_witness :
    SSPMSerializer.lookupDef [] 5 = none ∧
    SSPMSerializer.loopObjects 1 [] 9 ⟨rawL [0, 0, 0, 0, 5], 0⟩ [] [] =
      .error (.panicked "key not found") :=
  ⟨rfl,
   unknown_schema_id_aborts 0 [] 9 ⟨rawL [0, 0, 0, 0, 5], 0⟩
     ⟨rawL [0, 0, 0, 0, 5], 4⟩ ⟨rawL [0, 0, 0, 0, 5], 5⟩ 0 5 [] []
     (by norm_num) rfl rfl rfl⟩

/-- C6 counterexample: a 5-byte stream whose first four bytes differ from
`SS+m` is rejected with an UnexpectedEof error from the 10-byte header read,
not with the FormatError the claim promises for every stream with a wrong
magic. -/
theorem header_rejection_short_stream_cex :
    SSPMSerializer.deserialize (rawL [0, 0, 0, 0, 0]) =
      .error (.ioError .unexpectedEof "failed to fill whole buffer") := by
  rfl

/-- C6 (amended): for every input stream of at least 10 bytes whose first 4
bytes are not the ASCII bytes of `SS+m`, deserialize returns the FormatError
(InvalidData, "Incorrect file signature") regardless of all remaining stream
content — so no later field is interpreted; streams shorter than 10 bytes
fail earlier with UnexpectedEof from the header read. -/
theorem header_rejection (bs : List Nat) (hlen : 10 ≤ bs.length)
    (hmagic : bs.take 4 ≠ [0x53, 0x53, 0x2B, 0x6D]) :
    SSPMSerializer.deserialize (rawL bs) =
      .error (.ioError .invalidData "Incorrect file signature") := by
  unfold SSPMSerializer.deserialize SSPMSerializer.deserializeCore
  have hsplit : (rawL bs).drop 0 = rawL (bs.take 10) ++ rawL (bs.drop 10) := by
    simp [rawL, ← List.map_append]
  rw [read_bytes_spec (n := 10) (b := bs.take 10)
    (by rw [List.length_take]; omega) (by simp) hsplit]
  have hc : (bs.take 10).take 4 ≠ [0x53, 0x53, 0x2B, 0x6D] := by
    rw [List.take_take]
    simpa using hmagic
  simp only [bind, Except.bind, hc, if_pos, if_true, ite_true, Except.map]
  simp [hc]

theorem header_rejection_witness :
    10 ≤ (List.replicate 10 0).length ∧
    SSPMSerializer.deserialize (rawL (List.replicate 10 0)) =
      .error (.ioError .invalidData "Incorrect file signature") :=
  ⟨by simp, header_rejection (List.replicate 10 0) (by simp) (by decide)⟩

/-- C2 counterexample: a complete, otherwise valid SSPM stream whose single
record references schema id 5 while only id 0 is registered.  Deserializing
aborts with the HashMap key-not-found panic: no InvalidData error value is
returned to the caller. -/
def c2Bytes : List Nat :=
  [0x53, 0x53, 0x2B, 0x6D, 0x02, 0x00, 0, 0, 0, 0] ++
  List.replicate 20 0 ++
  [0, 0, 0, 0] ++ [1, 0, 0, 0] ++ [1, 0, 0, 0] ++
  [7] ++ [0, 0] ++ [0, 0, 0] ++
  List.replicate 16 0 ++
  List.replicate 16 0 ++
  List.replicate 16 0 ++
  ([138, 0, 0, 0, 0, 0, 0, 0] ++ [14, 0, 0, 0, 0, 0, 0, 0]) ++
  ([152, 0, 0, 0, 0, 0, 0, 0] ++ [8, 0, 0, 0, 0, 0, 0, 0]) ++
  [0, 0] ++ [0, 0] ++ [0, 0] ++ [0, 0] ++ [0, 0] ++
  ([1] ++ [8, 0] ++ sspNoteName ++ [1] ++ [7] ++ [0]) ++
  ([232, 3, 0, 0] ++ [5] ++ [0] ++ [4, 5])

set_option maxRecDepth 100000 in
theorem unknown_schema_id_panics_cex :
    SSPMSerializer.deserialize (rawL c2Bytes) = .error (.panicked "key not found") := by
  rfl

/-- Formalization of the spec phrase for C3: a coordinate is integral within
two decimal places when rounding it to two decimal places yields an integer.
This definition follows the claim wording, to be compared against the
encoder's own quantum test. -/
def integralTo2dp (q : Rat) : Prop := ∃ k : ℤ, rtp2 q = (k : Rat)

theorem rustRound_eq_rtp2_iff (q : Rat) :
    rustRound q = rtp2 q ↔ integralTo2dp q := by
  constructor
  · intro h
    exact ⟨rustRoundZ q, by rw [← h]; rfl⟩
  · rintro ⟨k, hk⟩
    have hr : (rustRoundZ (q * 100) : Rat) = 100 * k := by
      have hdef : rtp2 q = (rustRoundZ (q * 100) : Rat) / 100 := rfl
      rw [hdef] at hk
      field_simp at hk
      push_cast
      linarith
    rw [hk]
    show ((rustRoundZ q : ℤ) : Rat) = (k : Rat)
    unfold rustRoundZ at hr ⊢
    by_cases hq : 0 ≤ q
    · have hq100 : 0 ≤ q * 100 := by positivity
      rw [if_pos hq100] at hr
      rw [if_pos hq]
      have hfl : ⌊q * 100 + 1/2⌋ = 100 * k := by exact_mod_cast hr
      rw [Int.floor_eq_iff] at hfl
      obtain ⟨h1, h2⟩ := hfl
      push_cast at h1 h2
      have hgoal : ⌊q + 1/2⌋ = k := by
        rw [Int.floor_eq_iff]
        constructor
        · push_cast; linarith
        · push_cast; linarith
      exact_mod_cast hgoal
    · push_neg at hq
      have hq100 : ¬ (0 ≤ q * 100) := by
        push_neg
        nlinarith
      rw [if_neg hq100] at hr
      rw [if_neg (by push_neg; exact hq)]
      have hcl : ⌈q * 100 - 1/2⌉ = 100 * k := by exact_mod_cast hr
      rw [Int.ceil_eq_iff] at hcl
      obtain ⟨h1, h2⟩ := hcl
      push_cast at h1 h2
      have hgoal : ⌈q - 1/2⌉ = k := by
        rw [Int.ceil_eq_iff]
        constructor
        · push_cast; linarith
        · push_cast; linarith
      exact_mod_cast hgoal

/-- The encoder picks the compact form exactly when both coordinates are
integral within two decimal places. -/
theorem isQuantum_false_iff (x y : Rat) :
    isQuantum x y = false ↔ integralTo2dp x ∧ integralTo2dp y := by
  unfold isQuantum
  rw [Bool.or_eq_false_iff]
  simp only [Bool.not_eq_false', beq_iff_eq]
  rw [rustRound_eq_rtp2_iff, rustRound_eq_rtp2_iff]

theorem rustRoundZ_natCast (n : Nat) : rustRoundZ (n : Rat) = n := by
  unfold rustRoundZ
  rw [if_pos (by positivity)]
  have : ((n : ℤ) : Rat) ≤ (n : Rat) + 1/2 ∧ (n : Rat) + 1/2 < (n : ℤ) + 1 := by
    constructor <;> push_cast <;> linarith
  rw [Int.floor_eq_iff]
  exact this

theorem rtp2_natCast (n : Nat) : rtp2 (n : Rat) = (n : Rat) := by
  unfold rtp2 rustRound
  have h100 : (n : Rat) * 100 = ((n * 100 : Nat) : Rat) := by push_cast; ring
  rw [h100, rustRoundZ_natCast]
  push_cast
  field_simp

theorem integralTo2dp_natCast (n : Nat) : integralTo2dp (n : Rat) :=
  ⟨n, by rw [rtp2_natCast]; norm_cast⟩

theorem isQuantum_natCast (kx ky : Nat) :
    isQuantum (kx : Rat) (ky : Rat) = false :=
  (isQuantum_false_iff _ _).2 ⟨integralTo2dp_natCast kx, integralTo2dp_natCast ky⟩

theorem f32AsU8_natCast (k : Nat) : f32AsU8 (k : Rat) = min 255 k := by
  unfold f32AsU8
  rw [if_neg (not_lt.2 (by positivity))]
  have hfl : ((k : Rat)).floor = (k : ℤ) := by
    rw [show ((k : Rat)).floor = ⌊(k : Rat)⌋ from rfl, Int.floor_natCast]
  rw [hfl, Int.toNat_natCast]

theorem write_all_end (D l : List SByte) :
    BinaryWriter.write_all ⟨D, D.length⟩ l = ⟨D ++ l, (D ++ l).length⟩ := by
  rw [write_all_append ⟨D, D.length⟩ l rfl]
  simp

unseal Rat.mul Rat.add Rat.sub Rat.inv in
/-- C3 counterexample: the position `(255, 0)` has both coordinates integral
within two decimal places, yet the encoder does not write the compact form
for it: the `value as u8 + 1` computation overflows the `u8` and the encoder
aborts instead. -/
theorem quantization_overflow_cex :
    integralTo2dp (255 : Rat) ∧ integralTo2dp (0 : Rat) ∧
    SSPMSerializer.writeNote ⟨[], 0⟩ ⟨0, ((255 : Rat), (0 : Rat))⟩ =
      .error (.panicked "attempt to add with overflow") :=
  ⟨⟨255, by decide⟩, ⟨0, by decide⟩, by rfl⟩

/-- C3 (amended): the encoder chooses the compact 1-byte-per-axis form exactly
when both coordinates are integral within two decimal places; a non-integral
position is written in exact 4-byte-float-per-axis form; an integral position
is actually written compactly (each axis as its saturating `u8` cast plus
one) only when both casts are at most 254 — at 255 the `+ 1` overflows and
the encoder aborts (see the counterexample).  Decoding the float form
reproduces the value exactly; decoding the compact form yields `byte - 2`
per axis, so an axis that was a natural number `k ≤ 254` decodes to `k - 1`
(one unit below the original). -/
theorem quantization_boundary (x y : Rat) (ms : Nat) (w : WState)
    (hpos : w.pos = w.data.length) :
    (isQuantum x y = false ↔ integralTo2dp x ∧ integralTo2dp y) ∧
    (isQuantum x y = true →
      SSPMSerializer.writeNote w ⟨ms, (x, y)⟩ = .ok ⟨w.data ++
        (rawL (leBytes 4 ms) ++ rawL [0, 1] ++
          [SByte.flv x, .fcont, .fcont, .fcont] ++ [SByte.flv y, .fcont, .fcont, .fcont]),
        w.pos + 14⟩) ∧
    (isQuantum x y = false → f32AsU8 x ≤ 254 → f32AsU8 y ≤ 254 →
      SSPMSerializer.writeNote w ⟨ms, (x, y)⟩ = .ok ⟨w.data ++
        (rawL (leBytes 4 ms) ++ rawL [0, 0, f32AsU8 x + 1, f32AsU8 y + 1]),
        w.pos + 8⟩) ∧
    (∀ (d : List SByte) (p : Nat) (rest : List SByte), p ≤ d.length →
      d.drop p = [SByte.raw 1] ++ [SByte.flv x, .fcont, .fcont, .fcont] ++
        [SByte.flv y, .fcont, .fcont, .fcont] ++ rest →
      SSPMSerializer.parse_vec2 ⟨d, p⟩ = .ok (.Vec2 (some (x, y)), ⟨d, p + 9⟩)) ∧
    (∀ (d : List SByte) (p bx byv : Nat) (rest : List SByte), p ≤ d.length →
      d.drop p = [SByte.raw 0, SByte.raw bx, SByte.raw byv] ++ rest →
      SSPMSerializer.parse_vec2 ⟨d, p⟩ =
        .ok (.Vec2 (some ((bx : Rat) - 2, (byv : Rat) - 2)), ⟨d, p + 3⟩)) ∧
    (∀ kx : Nat, kx ≤ 254 → x = (kx : Rat) →
      f32AsU8 x = kx ∧ ((f32AsU8 x + 1 : Nat) : Rat) - 2 = x - 1) := by
  obtain ⟨D, wpos⟩ := w
  simp only at hpos
  subst hpos
  refine ⟨isQuantum_false_iff x y, ?_, ?_, ?_, ?_, ?_⟩
  · intro hq
    unfold SSPMSerializer.writeNote
    simp only [BinaryWriter.write_u32, BinaryWriter.write_u8, BinaryWriter.write_bool,
      BinaryWriter.write_f32, hq, if_true, write_all_end, bind, Except.bind]
    simp [rawL, List.append_assoc, leBytes_length, leBytes]
  · intro hq hx hy
    unfold SSPMSerializer.writeNote
    have hux : u8AddOne (f32AsU8 x) = .ok (f32AsU8 x + 1) := by
      unfold u8AddOne; rw [if_pos (by omega)]
    have huy : u8AddOne (f32AsU8 y) = .ok (f32AsU8 y + 1) := by
      unfold u8AddOne; rw [if_pos (by omega)]
    simp only [BinaryWriter.write_u32, BinaryWriter.write_u8, BinaryWriter.write_bool,
      BinaryWriter.write_f32, hq, write_all_end, bind, Except.bind, hux, huy,
      Bool.false_eq_true, if_false]
    refine Eq.trans ?_ rfl
    simp [rawL, List.append_assoc, leBytes_length, leBytes]
    omega
  · intro d p rest hp hdrop
    unfold SSPMSerializer.parse_vec2
    rw [read_bool_spec hp (by simpa using hdrop)]
    have hd1 : d.drop (p + 1) = [SByte.flv x, .fcont, .fcont, .fcont] ++
        ([SByte.flv y, .fcont, .fcont, .fcont] ++ rest) := by
      have := drop_shift (n := 1) (s := [SByte.raw 1]) rfl (by simpa using hdrop)
      simpa using this
    have hlen : d.length - p = 9 + rest.length := by
      have h := congrArg List.length hdrop
      rw [List.length_drop] at h
      simp only [List.length_append, List.length_cons, List.length_nil] at h
      omega
    simp only [bind, Except.bind, Nat.reduceBEq, if_true]
    rw [read_f32_spec (by omega) hd1]
    simp only [bind, Except.bind]
    rw [read_f32_spec (by omega) (drop_shift (n := 4) (s := [SByte.flv x, .fcont, .fcont, .fcont]) rfl hd1)]
  · intro d p bx byv rest hp hdrop
    unfold SSPMSerializer.parse_vec2
    rw [read_bool_spec hp (by simpa using hdrop)]
    have hlen : d.length - p = 3 + rest.length := by
      have h := congrArg List.length hdrop
      rw [List.length_drop] at h
      simp only [List.length_append, List.length_cons, List.length_nil] at h
      omega
    have hd1 : d.drop (p + 1) = SByte.raw bx :: (SByte.raw byv :: rest) := by
      have := drop_shift (n := 1) (s := [SByte.raw 0]) rfl (by simpa using hdrop)
      simpa using this
    have hd2 : d.drop (p + 1 + 1) = SByte.raw byv :: rest := by
      have := drop_shift (n := 1) (s := [SByte.raw bx]) rfl hd1
      simpa using this
    simp only [bind, Except.bind, Nat.reduceBEq, Bool.false_eq_true, if_false]
    rw [read_u8_spec (by omega) hd1]
    simp only [bind, Except.bind]
    rw [read_u8_spec (by omega) hd2]
  · intro kx hkx hx
    subst hx
    rw [f32AsU8_natCast]
    refine ⟨by omega, ?_⟩
    rw [show min 255 kx = kx from by omega]
    push_cast
    ring

theorem quantization_boundary_witness :
    isQuantum (3 : Rat) (4 : Rat) = false ∧
    SSPMSerializer.writeNote ⟨[], 0⟩ ⟨0, ((3 : Rat), (4 : Rat))⟩ =
      .ok ⟨([] : List SByte) ++
        (rawL (leBytes 4 0) ++ rawL [0, 0, f32AsU8 3 + 1, f32AsU8 4 + 1]), 0 + 8⟩ := by
  have h3 : (3 : Rat) = ((3 : Nat) : Rat) := by norm_num
  have h4 : (4 : Rat) = ((4 : Nat) : Rat) := by norm_num
  have hq : isQuantum (3 : Rat) (4 : Rat) = false := by
    rw [h3, h4]; exact isQuantum_natCast 3 4
  have hfx : f32AsU8 (3 : Rat) ≤ 254 := by
    rw [h3, f32AsU8_natCast]; norm_num
  have hfy : f32AsU8 (4 : Rat) ≤ 254 := by
    rw [h4, f32AsU8_natCast]; norm_num
  exact ⟨hq, (quantization_boundary 3 4 0 ⟨[], 0⟩ rfl).2.2.1 hq hfx hfy⟩

/-!
Explicit layout of the encoder output, used to prove the round-trip claim.
Each definition mirrors one section the encoder writes, and the recorded
offsets are the lengths of the preceding sections.
-/

def boolByte (b : Bool) : Nat := if b then 0x01 else 0x00

def stringBytes (s : List Nat) : List SByte := rawL (leBytes 2 s.length) ++ rawL s

def mappersBytes : List (List Nat) → List SByte
  | [] => []
  | s :: rest => stringBytes s ++ mappersBytes rest

def customBytes (dn : List Nat) : List SByte :=
  if dn.isEmpty then rawL (leBytes 2 0)
  else rawL (leBytes 2 1) ++ stringBytes difficultyNameKey ++ rawL [0x09] ++ stringBytes dn

def noteBytes (n : Note) : List SByte :=
  rawL (leBytes 4 n.millisecond) ++ rawL (leBytes 1 0) ++
    (if isQuantum n.position.1 n.position.2 then
      rawL [1] ++ [SByte.flv n.position.1, .fcont, .fcont, .fcont] ++
        [SByte.flv n.position.2, .fcont, .fcont, .fcont]
    else
      rawL [0, f32AsU8 n.position.1 + 1, f32AsU8 n.position.2 + 1])

def notesBytes : List Note → List SByte
  | [] => []
  | n :: rest => noteBytes n ++ notesBytes rest

/-- Header and static metadata: always 48 bytes. -/
def seg48 (m : Map) : List SByte :=
  rawL ([0x53, 0x53, 0x2B, 0x6D, 0x02, 0x00, 0, 0, 0, 0] ++
    List.replicate 20 0 ++ leBytes 4 m.length ++ leBytes 4 m.notes.length ++
    leBytes 4 (m.notes.length + m.objects.length) ++ leBytes 1 m.difficulty ++
    leBytes 2 0 ++ [boolByte m.audio.isSome, boolByte (!m.cover.isEmpty), 0])

def strsSeg (m : Map) : List SByte :=
  stringBytes m.id ++ stringBytes m.title ++ stringBytes m.title ++
    rawL (leBytes 2 m.mappers.length) ++ mappersBytes m.mappers

def defsSeg : List SByte := rawL (leBytes 1 1) ++ stringBytes sspNoteName ++ rawL [0x01, 0x07, 0x00]

def customOffV (m : Map) : Nat :=
  if m.difficulty_name.isEmpty then 0 else 128 + (strsSeg m).length

def customLenV (m : Map) : Nat :=
  if m.difficulty_name.isEmpty then 0 else (customBytes m.difficulty_name).length

def audioOffV (m : Map) : Nat :=
  128 + (strsSeg m).length + (customBytes m.difficulty_name).length

def audioLenV (m : Map) : Nat := (m.audio.getD []).length

def coverOffV (m : Map) : Nat :=
  if m.cover.isEmpty then 0 else audioOffV m + audioLenV m

def coverLenV (m : Map) : Nat := if m.cover.isEmpty then 0 else m.cover.length

def objdefOffV (m : Map) : Nat := audioOffV m + audioLenV m + m.cover.length

def objdataOffV (m : Map) : Nat := objdefOffV m + 14

def offsetsSeg (m : Map) : List SByte :=
  rawL (leBytes 8 (customOffV m) ++ leBytes 8 (customLenV m) ++
    leBytes 8 (audioOffV m) ++ leBytes 8 (audioLenV m) ++
    leBytes 8 (coverOffV m) ++ leBytes 8 (coverLenV m) ++
    leBytes 8 (objdefOffV m) ++ leBytes 8 14 ++
    leBytes 8 (objdataOffV m) ++ leBytes 8 ((notesBytes m.notes).length))

/-- The complete encoder output. -/
def sspmLayout (m : Map) : List SByte :=
  seg48 m ++ offsetsSeg m ++ strsSeg m ++ customBytes m.difficulty_name ++
    rawL (m.audio.getD []) ++ rawL m.cover ++ defsSeg ++ notesBytes m.notes ++
    stringBytes exportSignature

theorem stringBytes_length (s : List Nat) : (stringBytes s).length = 2 + s.length := by
  simp [stringBytes, rawL, leBytes_length]

theorem rawL_length (bs : List Nat) : (rawL bs).length = bs.length := by
  simp [rawL]

theorem seg48_length (m : Map) : (seg48 m).length = 48 := by
  simp [seg48, rawL, leBytes_length]

theorem offsetsSeg_length (m : Map) : (offsetsSeg m).length = 80 := by
  simp [offsetsSeg, rawL, leBytes_length]

theorem defsSeg_length : defsSeg.length = 14 := by
  simp [defsSeg, rawL, leBytes_length, stringBytes_length, sspNoteName]

theorem write_string_append (D : List SByte) (s : List Nat) :
    BinaryWriter.write_string ⟨D, D.length⟩ s =
      ⟨D ++ stringBytes s, (D ++ stringBytes s).length⟩ := by
  unfold BinaryWriter.write_string stringBytes
  rw [write_all_end]
  rw [write_all_end]
  simp

theorem writeMappers_append (ms : List (List Nat)) (D : List SByte) :
    SSPMSerializer.writeMappers ⟨D, D.length⟩ ms =
      ⟨D ++ mappersBytes ms, (D ++ mappersBytes ms).length⟩ := by
  induction ms generalizing D with
  | nil => simp [SSPMSerializer.writeMappers, mappersBytes]
  | cons s rest ih =>
    simp only [SSPMSerializer.writeMappers, mappersBytes]
    rw [write_string_append, ih]
    simp

theorem writeNote_append (n : Note) (D : List SByte)
    (h : isQuantum n.position.1 n.position.2 = true ∨
      (f32AsU8 n.position.1 ≤ 254 ∧ f32AsU8 n.position.2 ≤ 254)) :
    SSPMSerializer.writeNote ⟨D, D.length⟩ n =
      .ok ⟨D ++ noteBytes n, (D ++ noteBytes n).length⟩ := by
  unfold SSPMSerializer.writeNote noteBytes
  cases hq : isQuantum n.position.1 n.position.2 with
  | true =>
    simp only [BinaryWriter.write_u32, BinaryWriter.write_u8, BinaryWriter.write_bool,
      BinaryWriter.write_f32, write_all_end, bind, Except.bind, if_true]
    simp [rawL, leBytes, List.append_assoc]
  | false =>
    rcases h with h | ⟨hx, hy⟩
    · exact absurd hq (by rw [h]; exact Bool.true_eq_false ▸ (by simp [h]))
    · have hux : u8AddOne (f32AsU8 n.position.1) = .ok (f32AsU8 n.position.1 + 1) := by
        unfold u8AddOne; rw [if_pos (by omega)]
      have huy : u8AddOne (f32AsU8 n.position.2) = .ok (f32AsU8 n.position.2 + 1) := by
        unfold u8AddOne; rw [if_pos (by omega)]
      simp only [BinaryWriter.write_u32, BinaryWriter.write_u8, BinaryWriter.write_bool,
        write_all_end, bind, Except.bind, hux, huy, Bool.false_eq_true, if_false]
      refine Eq.trans ?_ rfl
      simp [rawL, leBytes, List.append_assoc]
      omega

theorem writeNotes_append (notes : List Note) (D : List SByte)
    (h : ∀ n ∈ notes, isQuantum n.position.1 n.position.2 = true ∨
      (f32AsU8 n.position.1 ≤ 254 ∧ f32AsU8 n.position.2 ≤ 254)) :
    SSPMSerializer.writeNotes ⟨D, D.length⟩ notes =
      .ok ⟨D ++ notesBytes notes, (D ++ notesBytes notes).length⟩ := by
  induction notes generalizing D with
  | nil => simp [SSPMSerializer.writeNotes, notesBytes]
  | cons n rest ih =>
    simp only [SSPMSerializer.writeNotes, notesBytes]
    rw [writeNote_append n D (h n (by simp))]
    simp only [bind, Except.bind]
    rw [ih _ (fun x hx => h x (by simp [hx]))]
    simp

theorem write_all_at (P B Q l : List SByte) (hB : B.length = l.length) :
    BinaryWriter.write_all ⟨P ++ B ++ Q, P.length⟩ l = ⟨P ++ l ++ Q, P.length + l.length⟩ := by
  unfold BinaryWriter.write_all listOverwrite
  have h1 : (P ++ B ++ Q).take P.length = P := by
    rw [List.append_assoc, List.take_left]
  have h2 : P.length - (P ++ B ++ Q).length = 0 := by
    simp [List.length_append]
  have hPB : P.length + l.length = (P ++ B).length := by simp [hB]
  have h3 : (P ++ B ++ Q).drop (P.length + l.length) = Q := by
    rw [hPB, List.drop_left]
  rw [h1, h2, h3]
  simp

def leBytes8s : List Nat → List Nat
  | [] => []
  | v :: vs => leBytes 8 v ++ leBytes8s vs

def writeU64s : WState → List Nat → WState
  | w, [] => w
  | w, v :: vs => writeU64s (BinaryWriter.write_u64 w v) vs

theorem write_u64_peel (P B Q : List SByte) (v : Nat) (hB : 8 ≤ B.length) :
    BinaryWriter.write_u64 ⟨P ++ B ++ Q, P.length⟩ v =
      ⟨(P ++ rawL (leBytes 8 v)) ++ B.drop 8 ++ Q, (P ++ rawL (leBytes 8 v)).length⟩ := by
  have hsplit : B = B.take 8 ++ B.drop 8 := (List.take_append_drop 8 B).symm
  have htake : (B.take 8).length = (rawL (leBytes 8 v)).length := by
    simp [rawL, leBytes_length, List.length_take]
    omega
  conv_lhs => rw [hsplit]
  unfold BinaryWriter.write_u64
  have hassoc : P ++ (B.take 8 ++ B.drop 8) ++ Q = P ++ B.take 8 ++ (B.drop 8 ++ Q) := by
    simp only [List.append_assoc]
  rw [hassoc]
  rw [write_all_at P (B.take 8) (B.drop 8 ++ Q) _ htake]
  simp [rawL, leBytes_length, List.append_assoc]

theorem writeU64s_patch (vs : List Nat) :
    ∀ (P B Q : List SByte), B.length = 8 * vs.length →
      writeU64s ⟨P ++ B ++ Q, P.length⟩ vs =
        ⟨P ++ rawL (leBytes8s vs) ++ Q, P.length + 8 * vs.length⟩ := by
  induction vs with
  | nil =>
    intro P B Q hB
    have hBnil : B = [] := List.eq_nil_of_length_eq_zero (by simpa using hB)
    subst hBnil
    simp [writeU64s, leBytes8s, rawL]
  | cons v vs ih =>
    intro P B Q hB
    have h8 : 8 ≤ B.length := by rw [hB, List.length_cons, Nat.mul_succ]; omega
    simp only [writeU64s]
    rw [write_u64_peel P B Q v h8]
    rw [ih (P ++ rawL (leBytes 8 v)) (B.drop 8) Q
      (by simp [List.length_drop, hB, Nat.mul_succ])]
    refine congrArg₂ WState.mk ?_ ?_
    · simp [leBytes8s, rawL, List.append_assoc]
    · simp [rawL, leBytes_length, Nat.mul_succ]
      omega

/-- Back-patching the ten 64-bit offset slots over the 80-byte placeholder. -/
theorem patch10 (P B Q : List SByte) (hB : B.length = 80)
    (v1 v2 v3 v4 v5 v6 v7 v8 v9 v10 : Nat) :
    BinaryWriter.write_u64 (BinaryWriter.write_u64 (BinaryWriter.write_u64
      (BinaryWriter.write_u64 (BinaryWriter.write_u64 (BinaryWriter.write_u64
        (BinaryWriter.write_u64 (BinaryWriter.write_u64 (BinaryWriter.write_u64
          (BinaryWriter.write_u64 ⟨P ++ B ++ Q, P.length⟩ v1) v2) v3) v4) v5) v6)
            v7) v8) v9) v10 =
      ⟨P ++ rawL (leBytes 8 v1 ++ leBytes 8 v2 ++ leBytes 8 v3 ++ leBytes 8 v4 ++
        leBytes 8 v5 ++ leBytes 8 v6 ++ leBytes 8 v7 ++ leBytes 8 v8 ++
        leBytes 8 v9 ++ leBytes 8 v10) ++ Q, P.length + 80⟩ := by
  have h := writeU64s_patch [v1, v2, v3, v4, v5, v6, v7, v8, v9, v10] P B Q (by rw [hB]; rfl)
  simpa [writeU64s, leBytes8s, List.append_nil] using h

theorem write_all_zero (l : List SByte) :
    BinaryWriter.write_all ⟨[], 0⟩ l = ⟨l, l.length⟩ := by
  simpa using write_all_end [] l

theorem writeHeaderMeta_append (D : List SByte) (m : Map) :
    SSPMSerializer.writeHeaderMeta ⟨D, D.length⟩ m =
      ⟨D ++ seg48 m, (D ++ seg48 m).length⟩ := by
  unfold SSPMSerializer.writeHeaderMeta
  simp only [BinaryWriter.write_u8, BinaryWriter.write_u16, BinaryWriter.write_u32,
    BinaryWriter.write_sha1, BinaryWriter.write_bool, write_all_end]
  refine congrArg₂ WState.mk ?_ ?_ <;>
    simp [seg48, rawL, boolByte, leBytes, List.append_assoc]

theorem writeStrings_append (D : List SByte) (m : Map) :
    SSPMSerializer.writeStrings ⟨D, D.length⟩ m =
      ⟨D ++ strsSeg m, (D ++ strsSeg m).length⟩ := by
  unfold SSPMSerializer.writeStrings
  simp only [BinaryWriter.write_u16, write_all_end, write_string_append, writeMappers_append]
  refine congrArg₂ WState.mk ?_ ?_ <;>
    simp [strsSeg, rawL, List.append_assoc]

theorem writeCustomData_append (D : List SByte) (m : Map) :
    SSPMSerializer.writeCustomData ⟨D, D.length⟩ m =
      (⟨D ++ customBytes m.difficulty_name, (D ++ customBytes m.difficulty_name).length⟩,
        (if m.difficulty_name.isEmpty then 0 else D.length),
        (if m.difficulty_name.isEmpty then 0 else (customBytes m.difficulty_name).length)) := by
  unfold SSPMSerializer.writeCustomData
  by_cases hdn : m.difficulty_name.isEmpty
  · simp only [hdn, if_true, BinaryWriter.write_u16, write_all_end]
    refine congrArg₂ Prod.mk (congrArg₂ WState.mk ?_ ?_) rfl <;>
      simp [customBytes, hdn, rawL, List.append_assoc]
  · simp only [hdn, if_false, BinaryWriter.write_u16, BinaryWriter.write_u8,
      BinaryWriter.stream_position, write_all_end, write_string_append]
    refine congrArg₂ Prod.mk (congrArg₂ WState.mk ?_ ?_) (congrArg₂ Prod.mk rfl ?_)
    · simp [customBytes, hdn, rawL, leBytes, List.append_assoc]
    · simp [customBytes, hdn, rawL, leBytes_length, stringBytes_length, List.append_assoc]
      omega
    · simp [customBytes, hdn, rawL, leBytes_length, stringBytes_length, List.append_assoc]
      omega

theorem writeAudio_append (D : List SByte) (m : Map) :
    SSPMSerializer.writeAudio ⟨D, D.length⟩ m =
      ⟨D ++ rawL (m.audio.getD []), (D ++ rawL (m.audio.getD [])).length⟩ := by
  unfold SSPMSerializer.writeAudio
  cases haud : m.audio with
  | none => simp [rawL]
  | some a => simp only [Option.getD_some]; rw [write_all_end]

theorem writeCover_append (D : List SByte) (m : Map) :
    SSPMSerializer.writeCover ⟨D, D.length⟩ m =
      (⟨D ++ rawL m.cover, (D ++ rawL m.cover).length⟩,
        (if m.cover.isEmpty then 0 else D.length),
        (if m.cover.isEmpty then 0 else m.cover.length)) := by
  unfold SSPMSerializer.writeCover
  by_cases hcov : m.cover.isEmpty
  · have : m.cover = [] := by simpa [List.isEmpty_iff] using hcov
    simp [hcov, this, rawL]
  · simp only [hcov, if_false, BinaryWriter.stream_position, write_all_end]
    refine congrArg₂ Prod.mk rfl (congrArg₂ Prod.mk rfl ?_)
    simp [rawL]

theorem writeDefs_append (D : List SByte) :
    SSPMSerializer.writeDefs ⟨D, D.length⟩ =
      ⟨D ++ defsSeg, (D ++ defsSeg).length⟩ := by
  unfold SSPMSerializer.writeDefs
  simp only [BinaryWriter.write_u8, write_all_end, write_string_append]
  refine congrArg₂ WState.mk ?_ ?_ <;>
    simp [defsSeg, rawL, leBytes, List.append_assoc]

theorem writeOffsets_patch (P B Q : List SByte) (hB : B.length = 80)
    (v1 v2 v3 v4 v5 v6 v7 v8 v9 v10 : Nat) :
    SSPMSerializer.writeOffsets ⟨P ++ B ++ Q, P.length⟩ v1 v2 v3 v4 v5 v6 v7 v8 v9 v10 =
      ⟨P ++ rawL (leBytes 8 v1 ++ leBytes 8 v2 ++ leBytes 8 v3 ++ leBytes 8 v4 ++
        leBytes 8 v5 ++ leBytes 8 v6 ++ leBytes 8 v7 ++ leBytes 8 v8 ++
        leBytes 8 v9 ++ leBytes 8 v10) ++ Q, P.length + 80⟩ := by
  unfold SSPMSerializer.writeOffsets
  exact patch10 P B Q hB v1 v2 v3 v4 v5 v6 v7 v8 v9 v10

theorem serialize_layout (m : Map)
    (hnotes : ∀ n ∈ m.notes, isQuantum n.position.1 n.position.2 = true ∨
      (f32AsU8 n.position.1 ≤ 254 ∧ f32AsU8 n.position.2 ≤ 254)) :
    SSPMSerializer.serialize m = .ok (sspmLayout m) := by
  have hwn : ∀ D : List SByte, SSPMSerializer.writeNotes ⟨D, D.length⟩ m.notes =
      .ok ⟨D ++ notesBytes m.notes, (D ++ notesBytes m.notes).length⟩ :=
    fun D => writeNotes_append m.notes D hnotes
  unfold SSPMSerializer.serialize
  rw [show (⟨[], 0⟩ : WState) = ⟨[], ([] : List SByte).length⟩ from rfl]
  simp only [writeHeaderMeta_append, List.nil_append, write_all_end, writeStrings_append,
    writeCustomData_append, writeAudio_append, writeCover_append, writeDefs_append, hwn,
    bind, Except.bind, BinaryWriter.stream_position, BinaryWriter.seekTo,
    BinaryWriter.seekEnd, write_string_append]
  have hD : seg48 m ++ rawL (List.replicate 80 0) ++ strsSeg m ++
      customBytes m.difficulty_name ++ rawL (m.audio.getD []) ++ rawL m.cover ++
        defsSeg ++ notesBytes m.notes
      = seg48 m ++ rawL (List.replicate 80 0) ++
          (strsSeg m ++ (customBytes m.difficulty_name ++ (rawL (m.audio.getD []) ++
            (rawL m.cover ++ (defsSeg ++ notesBytes m.notes))))) := by
    simp only [List.append_assoc]
  have l48 : (seg48 m).length = 48 := seg48_length m
  have e1 : (if m.difficulty_name.isEmpty = true then 0
      else (seg48 m ++ rawL (List.replicate 80 0) ++ strsSeg m).length) = customOffV m := by
    unfold customOffV
    by_cases hdn : m.difficulty_name.isEmpty
    · simp [hdn]
    · simp only [hdn, if_false, List.length_append, rawL_length, List.length_replicate, l48]
  have e2 : (if m.difficulty_name.isEmpty = true then 0
      else (customBytes m.difficulty_name).length) = customLenV m := by
    unfold customLenV
    by_cases hdn : m.difficulty_name.isEmpty <;> simp [hdn]
  have e3 : (seg48 m ++ rawL (List.replicate 80 0) ++ strsSeg m ++
      customBytes m.difficulty_name).length = audioOffV m := by
    simp only [audioOffV, List.length_append, rawL_length, List.length_replicate, l48]
  have e4 : (seg48 m ++ rawL (List.replicate 80 0) ++ strsSeg m ++
      customBytes m.difficulty_name ++ rawL (m.audio.getD [])).length -
        (seg48 m ++ rawL (List.replicate 80 0) ++ strsSeg m ++
          customBytes m.difficulty_name).length = audioLenV m := by
    simp only [audioLenV, List.length_append, rawL_length, List.length_replicate, l48]
    omega
  have e5 : (if m.cover.isEmpty = true then 0
      else (seg48 m ++ rawL (List.replicate 80 0) ++ strsSeg m ++
        customBytes m.difficulty_name ++ rawL (m.audio.getD [])).length) = coverOffV m := by
    unfold coverOffV
    by_cases hcov : m.cover.isEmpty
    · simp [hcov]
    · simp only [hcov, if_false, audioOffV, audioLenV, List.length_append, rawL_length,
        List.length_replicate, l48]
  have e6 : (if m.cover.isEmpty = true then 0 else m.cover.length) = coverLenV m := by
    unfold coverLenV
    by_cases hcov : m.cover.isEmpty <;> simp [hcov]
  have e7 : (seg48 m ++ rawL (List.replicate 80 0) ++ strsSeg m ++
      customBytes m.difficulty_name ++ rawL (m.audio.getD []) ++
        rawL m.cover).length = objdefOffV m := by
    simp only [objdefOffV, audioOffV, audioLenV, List.length_append, rawL_length,
      List.length_replicate, l48]
  have e8 : (seg48 m ++ rawL (List.replicate 80 0) ++ strsSeg m ++
      customBytes m.difficulty_name ++ rawL (m.audio.getD []) ++ rawL m.cover ++
        defsSeg).length -
      (seg48 m ++ rawL (List.replicate 80 0) ++ strsSeg m ++
        customBytes m.difficulty_name ++ rawL (m.audio.getD []) ++
          rawL m.cover).length = 14 := by
    simp only [List.length_append, defsSeg_length]
    omega
  have e9 : (seg48 m ++ rawL (List.replicate 80 0) ++ strsSeg m ++
      customBytes m.difficulty_name ++ rawL (m.audio.getD []) ++ rawL m.cover ++
        defsSeg).length = objdataOffV m := by
    simp only [objdataOffV, objdefOffV, audioOffV, audioLenV, List.length_append,
      rawL_length, List.length_replicate, l48, defsSeg_length]
  have e10 : (seg48 m ++ rawL (List.replicate 80 0) ++ strsSeg m ++
      customBytes m.difficulty_name ++ rawL (m.audio.getD []) ++ rawL m.cover ++
        defsSeg ++ notesBytes m.notes).length -
      (seg48 m ++ rawL (List.replicate 80 0) ++ strsSeg m ++
        customBytes m.difficulty_name ++ rawL (m.audio.getD []) ++ rawL m.cover ++
          defsSeg).length = (notesBytes m.notes).length := by
    simp only [List.length_append]
    omega
  rw [e4, e8, e10, e1, e2, e3, e5, e6, e7, e9]
  rw [hD]
  rw [writeOffsets_patch (seg48 m) (rawL (List.replicate 80 0)) _ (by simp [rawL])]
  simp only [sspmLayout, offsetsSeg, List.append_assoc]

/-!
Decoding the encoder layout: the round-trip simulation.
-/

/-- The schema entry the decoder builds from the encoder's schema table. -/
def sspDef : ObjectDefinition := ⟨sspNoteName, 0, [ObjectType.Vec2 none]⟩

/-- What one encoded note decodes back to: quantum notes round-trip exactly,
compact notes come back as `(cast + 1) - 2` per axis. -/
def decNote (n : Note) : Note :=
  if isQuantum n.position.1 n.position.2 then n
  else ⟨n.millisecond, (((f32AsU8 n.position.1 + 1 : Nat) : Rat) - 2,
    ((f32AsU8 n.position.2 + 1 : Nat) : Rat) - 2)⟩

def decNotes (notes : List Note) : List Note := notes.map decNote

theorem natOfLE_leBytes_lt (n v : Nat) (h : v < 256 ^ n) :
    natOfLE (leBytes n v) = v := by
  rw [natOfLE_leBytes, Nat.mod_eq_of_lt h]

theorem le_length_of_drop {d : List SByte} {p : Nat} {l : List SByte}
    (h : d.drop p = l) (hl : 0 < l.length) : p ≤ d.length := by
  by_contra hc
  push_neg at hc
  rw [List.drop_eq_nil_of_le (le_of_lt hc)] at h
  rw [← h] at hl
  simp at hl

theorem noteBytes_length (n : Note) :
    (noteBytes n).length =
      if isQuantum n.position.1 n.position.2 then 14 else 8 := by
  unfold noteBytes
  by_cases hq : isQuantum n.position.1 n.position.2 <;>
    simp [hq, rawL, leBytes_length]

theorem notesBytes_append_assoc (n : Note) (ns : List Note) :
    notesBytes (n :: ns) = noteBytes n ++ notesBytes ns := rfl

theorem stringBytes_cons (s : List Nat) (h : s.length < 65536) :
    stringBytes s = rawL (s.length % 256 :: s.length / 256 :: s) := by
  unfold stringBytes leBytes
  simp only [rawL, List.map_append, List.map_cons, List.map_nil]
  have : s.length / 256 % 256 = s.length / 256 := Nat.mod_eq_of_lt (by omega)
  simp [leBytes, this]

theorem readMappers_sim (names : List (List Nat)) :
    ∀ (d : List SByte) (p : Nat) (rest : List SByte),
      (∀ s ∈ names, isValidUtf8 s = true ∧ s.length < 65536) →
      0 < rest.length →
      d.drop p = mappersBytes names ++ rest →
      SSPMSerializer.readMappers names.length ⟨d, p⟩ =
        .ok (names, ⟨d, p + (mappersBytes names).length⟩) := by
  induction names with
  | nil =>
    intro d p rest _ _ _
    simp [SSPMSerializer.readMappers, mappersBytes]
  | cons s ns ih =>
    intro d p rest hv hr hdrop
    obtain ⟨hvs, hls⟩ := hv s (by simp)
    have hdrop2 : d.drop p = rawL (s.length % 256 :: s.length / 256 :: s) ++
        (mappersBytes ns ++ rest) := by
      rw [hdrop, mappersBytes, stringBytes_cons s hls, List.append_assoc]
    have hp : p ≤ d.length := le_length_of_drop hdrop2 (by simp [rawL])
    simp only [List.length_cons, SSPMSerializer.readMappers]
    rw [read_string_spec hls hvs hp hdrop2]
    simp only [bind, Except.bind]
    have hshift : d.drop (p + 2 + s.length) = mappersBytes ns ++ rest := by
      have h := drop_shift (n := 2 + s.length)
        (s := rawL (s.length % 256 :: s.length / 256 :: s)) (by simp [rawL]; omega) hdrop2
      rw [show p + (2 + s.length) = p + 2 + s.length from by omega] at h
      exact h
    rw [ih d (p + 2 + s.length) rest (fun x hx => hv x (by simp [hx])) hr hshift]
    simp only [bind, Except.bind, mappersBytes]
    refine congrArg Except.ok (congrArg₂ Prod.mk rfl (congrArg₂ RState.mk rfl ?_))
    simp only [List.length_append, stringBytes_length]
    omega

theorem lookupDef_ssp : SSPMSerializer.lookupDef [(0, sspDef)] 0 = some sspDef := rfl

theorem loopObjects_sim (notes : List Note) :
    ∀ (d : List SByte) (p : Nat) (rest : List SByte) (fuel : Nat) (accN : List Note)
      (accO : List ObjectDefinition),
      notes.length < fuel →
      (∀ n ∈ notes, n.millisecond < 4294967296) →
      (∀ n ∈ notes, isQuantum n.position.1 n.position.2 = true ∨
        (f32AsU8 n.position.1 ≤ 254 ∧ f32AsU8 n.position.2 ≤ 254)) →
      0 < rest.length →
      d.drop p = notesBytes notes ++ rest →
      SSPMSerializer.loopObjects fuel [(0, sspDef)] (p + (notesBytes notes).length)
          ⟨d, p⟩ accN accO =
        .ok (accN ++ decNotes notes, accO, ⟨d, p + (notesBytes notes).length⟩) := by
  induction notes with
  | nil =>
    intro d p rest fuel accN accO hfuel _ _ _ _
    cases fuel with
    | zero => omega
    | succ f =>
      simp [SSPMSerializer.loopObjects, notesBytes, decNotes]
  | cons n ns ih =>
    intro d p rest fuel accN accO hfuel hms hq hr hdrop
    cases fuel with
    | zero => omega
    | succ f =>
    obtain ⟨hms1, hmsr⟩ : n.millisecond < 4294967296 ∧
        ∀ x ∈ ns, x.millisecond < 4294967296 :=
      ⟨hms n (by simp), fun x hx => hms x (by simp [hx])⟩
    have hq1 := hq n (by simp)
    have hlen1 : 8 ≤ (noteBytes n).length := by
      rw [noteBytes_length]
      by_cases hb : isQuantum n.position.1 n.position.2 <;> simp [hb]
    have hcond : p < p + (notesBytes (n :: ns)).length := by
      rw [notesBytes_append_assoc, List.length_append]
      omega
    have hdropA : d.drop p = rawL (leBytes 4 n.millisecond) ++
        (rawL (leBytes 1 0) ++ ((if isQuantum n.position.1 n.position.2 then
          rawL [1] ++ [SByte.flv n.position.1, .fcont, .fcont, .fcont] ++
            [SByte.flv n.position.2, .fcont, .fcont, .fcont]
        else
          rawL [0, f32AsU8 n.position.1 + 1, f32AsU8 n.position.2 + 1]) ++
          (notesBytes ns ++ rest))) := by
      rw [hdrop, notesBytes_append_assoc]
      unfold noteBytes
      simp only [List.append_assoc]
    have hp : p ≤ d.length := le_length_of_drop hdropA (by simp [rawL, leBytes_length])
    have hrem : d.length - p = (notesBytes (n :: ns)).length + rest.length := by
      rw [← List.length_drop, hdrop, List.length_append]
    have htot : (notesBytes (n :: ns)).length = (noteBytes n).length + (notesBytes ns).length := by
      rw [notesBytes_append_assoc, List.length_append]
    simp only [SSPMSerializer.loopObjects, hcond, if_pos]
    rw [read_u32_spec (leBytes_length 4 n.millisecond) hp hdropA]
    simp only [bind, Except.bind]
    have hd4 : d.drop (p + 4) = SByte.raw 0 :: ((if isQuantum n.position.1 n.position.2 then
        rawL [1] ++ [SByte.flv n.position.1, .fcont, .fcont, .fcont] ++
          [SByte.flv n.position.2, .fcont, .fcont, .fcont]
      else
        rawL [0, f32AsU8 n.position.1 + 1, f32AsU8 n.position.2 + 1]) ++
        (notesBytes ns ++ rest)) := by
      have h := drop_shift (n := 4) (s := rawL (leBytes 4 n.millisecond))
        (by simp [rawL, leBytes_length]) hdropA
      simpa [rawL, leBytes] using h
    rw [read_u8_spec (by omega) hd4]
    simp only [bind, Except.bind, natOfLE_leBytes_lt 4 n.millisecond hms1, lookupDef_ssp]
    unfold SSPMSerializer.parse_definitions sspDef
    simp only [SSPMSerializer.parseSlots, SSPMSerializer.parse_types]
    by_cases hqn : isQuantum n.position.1 n.position.2
    · -- quantum: flag byte 1 then two exact floats
      rw [if_pos hqn] at hd4
      have hnb : (noteBytes n).length = 14 := by rw [noteBytes_length, if_pos hqn]
      have hd5 : d.drop (p + 4 + 1) = SByte.raw 1 ::
          ([SByte.flv n.position.1, .fcont, .fcont, .fcont] ++
            ([SByte.flv n.position.2, .fcont, .fcont, .fcont] ++ (notesBytes ns ++ rest))) := by
        have h := drop_shift (n := 1) (s := [SByte.raw 0]) rfl hd4
        simpa [rawL, List.append_assoc] using h
      have hd6 : d.drop (p + 4 + 1 + 1) = [SByte.flv n.position.1, .fcont, .fcont, .fcont] ++
          ([SByte.flv n.position.2, .fcont, .fcont, .fcont] ++ (notesBytes ns ++ rest)) := by
        have h := drop_shift (n := 1) (s := [SByte.raw 1]) rfl hd5
        simpa using h
      have hd7 : d.drop (p + 4 + 1 + 1 + 4) =
          [SByte.flv n.position.2, .fcont, .fcont, .fcont] ++ (notesBytes ns ++ rest) := by
        have h := drop_shift (n := 4) (s := [SByte.flv n.position.1, .fcont, .fcont, .fcont])
          rfl hd6
        simpa [Nat.add_assoc] using h
      unfold SSPMSerializer.parse_vec2
      rw [read_bool_spec (by omega) hd5]
      simp only [bind, Except.bind, Nat.reduceBEq, if_true]
      rw [read_f32_spec (by omega) hd6]
      simp only [bind, Except.bind]
      rw [read_f32_spec (by omega) hd7]
      simp only [bind, Except.bind, Except.map]
      simp only [show sspNoteName = sspNoteName from rfl, if_pos]
      simp only [Note.from_definition, List.length_cons, List.head?_cons, bind, Except.bind]
      norm_num
      have hdnext : d.drop (p + 14) = notesBytes ns ++ rest := by
        have h := drop_shift (n := 4) (s := [SByte.flv n.position.2, .fcont, .fcont, .fcont])
          rfl hd7
        rw [show p + 4 + 1 + 1 + 4 + 4 = p + 14 from by omega] at h
        exact h
      have hrec := ih d (p + 14) rest f (accN ++ [⟨n.millisecond, n.position⟩]) accO
        (by simpa using hfuel) hmsr (fun x hx => hq x (by simp [hx])) hr hdnext
      have hend : p + (notesBytes (n :: ns)).length = p + 14 + (notesBytes ns).length := by
        rw [notesBytes_append_assoc, List.length_append, noteBytes_length, if_pos hqn]
        omega
      rw [show p + 4 + 1 + 1 + 4 + 4 = p + 14 from by omega, hend,
        show (⟨sspNoteName, 0, [ObjectType.Vec2 none]⟩ : ObjectDefinition) = sspDef from rfl,
        hrec]
      have : decNote n = ⟨n.millisecond, n.position⟩ := by
        unfold decNote
        rw [if_pos hqn]
      simp [decNotes, this, List.append_assoc]
    · -- compact: flag byte 0 then two bytes
      rw [if_neg hqn] at hd4
      have hnb : (noteBytes n).length = 8 := by rw [noteBytes_length, if_neg hqn]
      obtain ⟨hx254, hy254⟩ : f32AsU8 n.position.1 ≤ 254 ∧ f32AsU8 n.position.2 ≤ 254 := by
        rcases hq1 with h | h
        · exact absurd h (by simp [hqn])
        · exact h
      have hd5 : d.drop (p + 4 + 1) = SByte.raw 0 ::
          (rawL [f32AsU8 n.position.1 + 1, f32AsU8 n.position.2 + 1] ++
            (notesBytes ns ++ rest)) := by
        have h := drop_shift (n := 1) (s := [SByte.raw 0]) rfl hd4
        simpa [rawL, List.append_assoc] using h
      have hd6 : d.drop (p + 4 + 1 + 1) = SByte.raw (f32AsU8 n.position.1 + 1) ::
          (rawL [f32AsU8 n.position.2 + 1] ++ (notesBytes ns ++ rest)) := by
        have h := drop_shift (n := 1) (s := [SByte.raw 0]) rfl hd5
        simpa [rawL, List.append_assoc] using h
      have hd7 : d.drop (p + 4 + 1 + 1 + 1) = SByte.raw (f32AsU8 n.position.2 + 1) ::
          (notesBytes ns ++ rest) := by
        have h := drop_shift (n := 1) (s := [SByte.raw (f32AsU8 n.position.1 + 1)]) rfl hd6
        simpa [rawL, List.append_assoc] using h
      unfold SSPMSerializer.parse_vec2
      rw [read_bool_spec (by omega) hd5]
      simp only [bind, Except.bind, Nat.reduceBEq, Bool.false_eq_true, if_false]
      rw [read_u8_spec (by omega) hd6]
      simp only [bind, Except.bind]
      rw [read_u8_spec (by omega) hd7]
      simp only [bind, Except.bind, Except.map]
      simp only [show sspNoteName = sspNoteName from rfl, if_pos]
      simp only [Note.from_definition, List.length_cons, List.head?_cons, bind, Except.bind]
      norm_num
      have hdnext : d.drop (p + 8) = notesBytes ns ++ rest := by
        have h := drop_shift (n := 1) (s := [SByte.raw (f32AsU8 n.position.2 + 1)]) rfl hd7
        rw [show p + 4 + 1 + 1 + 1 + 1 = p + 8 from by omega] at h
        exact h
      have hrec := ih d (p + 8) rest f
        (accN ++ [⟨n.millisecond, ((f32AsU8 n.position.1 : Rat) + 1 - 2,
          (f32AsU8 n.position.2 : Rat) + 1 - 2)⟩]) accO
        (by simpa using hfuel) hmsr (fun x hx => hq x (by simp [hx])) hr hdnext
      have hend : p + (notesBytes (n :: ns)).length = p + 8 + (notesBytes ns).length := by
        rw [notesBytes_append_assoc, List.length_append, noteBytes_length, if_neg hqn]
        omega
      rw [show p + 4 + 1 + 1 + 1 + 1 = p + 8 from by omega, hend,
        show (⟨sspNoteName, 0, [ObjectType.Vec2 none]⟩ : ObjectDefinition) = sspDef from rfl,
        hrec]
      have : decNote n = ⟨n.millisecond, ((f32AsU8 n.position.1 : Rat) + 1 - 2,
          (f32AsU8 n.position.2 : Rat) + 1 - 2)⟩ := by
        unfold decNote
        rw [if_neg hqn]
        push_cast
        ring_nf
      simp [decNotes, this, List.append_assoc]

theorem boolByte_eq_one (b : Bool) : (boolByte b == 1) = b := by
  cases b <;> rfl

theorem customBytes_len (dn : List Nat) :
    (customBytes dn).length = if dn.isEmpty then 2 else 22 + dn.length := by
  by_cases h : dn.isEmpty <;>
    simp [customBytes, h, rawL, leBytes_length, stringBytes_length, difficultyNameKey] <;> omega

theorem exportSig_len : (stringBytes exportSignature).length = 19 := by
  simp [stringBytes_length, exportSignature]

theorem sspmLayout_len (m : Map) :
    (sspmLayout m).length = 161 + (strsSeg m).length + (customBytes m.difficulty_name).length +
      (m.audio.getD []).length + m.cover.length + (notesBytes m.notes).length := by
  simp only [sspmLayout, List.length_append, seg48_length, offsetsSeg_length, defsSeg_length,
    exportSig_len, rawL_length]
  omega

theorem strsSeg_len (m : Map) :
    (strsSeg m).length =
      8 + m.id.length + 2 * m.title.length + (mappersBytes m.mappers).length := by
  simp only [strsSeg, List.length_append, stringBytes_length, rawL_length, leBytes_length]
  omega

theorem notes_length_le_bytes (ns : List Note) : ns.length ≤ (notesBytes ns).length := by
  induction ns with
  | nil => simp [notesBytes]
  | cons n rest ih =>
    rw [notesBytes_append_assoc, List.length_append, List.length_cons]
    have h := noteBytes_length n
    by_cases hb : isQuantum n.position.1 n.position.2 <;> simp [hb] at h <;> omega

theorem loopDefinitions_zero (idx : Nat) (r : RState) (acc : List (Nat × ObjectDefinition)) :
    SSPMSerializer.loopDefinitions 0 idx r acc = .ok (acc, r) := rfl

theorem loopDefinitions_one (idx : Nat) (r : RState) (acc : List (Nat × ObjectDefinition)) :
    SSPMSerializer.loopDefinitions 1 idx r acc = (do
      let (name, r) ← BinaryReader.read_string r
      let (values, r) ← BinaryReader.read_u8 r
      let (defs, r) ← SSPMSerializer.readTags values r
      let (term, r) ← BinaryReader.read_u8 r
      if term = 0 then
        SSPMSerializer.loopDefinitions 0 (idx + 1) r (acc ++ [(idx, ⟨name, 0, defs⟩)])
      else
        .error (.panicked "assertion failed")) := rfl

theorem readTags_zero (r : RState) :
    SSPMSerializer.readTags 0 r = .ok ([], r) := rfl

theorem readTags_one (r : RState) :
    SSPMSerializer.readTags 1 r = (do
      let (b, r) ← BinaryReader.read_u8 r
      let t ← ObjectType.from_sspm b
      let (rest, r) ← SSPMSerializer.readTags 0 r
      .ok (t :: rest, r)) := rfl

theorem loopDefinitions_sim {d : List SByte} {p : Nat} {rest : List SByte}
    (hdrop : d.drop p = defsSeg ++ rest) (hr : 0 < rest.length) :
    BinaryReader.read_u8 ⟨d, p⟩ = .ok (1, ⟨d, p + 1⟩) ∧
      SSPMSerializer.loopDefinitions 1 0 ⟨d, p + 1⟩ [] =
        .ok ([(0, sspDef)], ⟨d, p + 14⟩) := by
  have hd0 : d.drop p = SByte.raw 1 ::
      (rawL (sspNoteName.length % 256 :: sspNoteName.length / 256 :: sspNoteName) ++
        (rawL [1, 7, 0] ++ rest)) := by
    rw [hdrop]
    unfold defsSeg
    rw [stringBytes_cons sspNoteName (by norm_num [sspNoteName])]
    simp [rawL, leBytes, List.append_assoc]
  have hp : p ≤ d.length := le_length_of_drop hd0 (by simp)
  have hsn : sspNoteName.length = 8 := rfl
  have hrem : d.length - p = 14 + rest.length := by
    have h := congrArg List.length hd0
    rw [List.length_drop] at h
    simp [rawL, sspNoteName] at h
    omega
  refine ⟨read_u8_spec hp hd0, ?_⟩
  have hd1 : d.drop (p + 1) =
      rawL (sspNoteName.length % 256 :: sspNoteName.length / 256 :: sspNoteName) ++
        (rawL [1, 7, 0] ++ rest) :=
    drop_shift (n := 1) (s := [SByte.raw 1]) rfl hd0
  rw [loopDefinitions_one]
  rw [read_string_spec (by norm_num [sspNoteName]) (by decide) (by omega) hd1]
  simp only [bind, Except.bind]
  have hd2 : d.drop (p + 1 + 2 + sspNoteName.length) = SByte.raw 1 ::
      (SByte.raw 7 :: (SByte.raw 0 :: rest)) := by
    have h1 : d.drop (p + 1) =
        rawL [sspNoteName.length % 256, sspNoteName.length / 256] ++
          (rawL sspNoteName ++ (rawL [1, 7, 0] ++ rest)) := by
      rw [hd1]; simp [rawL]
    have h2 := drop_shift (n := 2)
      (s := rawL [sspNoteName.length % 256, sspNoteName.length / 256]) (by simp [rawL]) h1
    have h3 := drop_shift (n := sspNoteName.length) (s := rawL sspNoteName)
      (by simp [rawL]) h2
    rw [h3]
    simp [rawL]
  rw [read_u8_spec (by omega) hd2]
  simp only [bind, Except.bind]
  rw [readTags_one]
  rw [read_u8_spec (by omega)
    (drop_shift (n := 1) (s := [SByte.raw 1]) rfl hd2)]
  simp only [bind, Except.bind]
  rw [show ObjectType.from_sspm 7 = Except.ok (ObjectType.Vec2 none) from rfl]
  simp only [bind, Except.bind, pure, Except.pure]
  rw [readTags_zero]
  simp only [bind, Except.bind]
  rw [read_u8_spec (by omega)
    (drop_shift (n := 1) (s := [SByte.raw 7]) rfl
      (drop_shift (n := 1) (s := [SByte.raw 1]) rfl hd2))]
  simp only [bind, Except.bind]
  simp only [if_true]
  rw [show p + 1 + 2 + sspNoteName.length + 1 + 1 + 1 = p + 14 from by
    rw [hsn]]
  rfl

theorem readCustomFields_zero (r : RState) (acc : List (List Nat × ObjectType)) :
    SSPMSerializer.readCustomFields 0 r acc = .ok (acc, r) := rfl

theorem readCustomFields_one (r : RState) (acc : List (List Nat × ObjectType)) :
    SSPMSerializer.readCustomFields 1 r acc = (do
      let (name, r) ← BinaryReader.read_string r
      let (tagByte, r) ← BinaryReader.read_u8 r
      let dataType ← ObjectType.from_sspm tagByte
      let (value, r) ← SSPMSerializer.parse_types dataType r
      SSPMSerializer.readCustomFields 0 r (acc ++ [(name, value)])) := rfl

theorem customFields_decode (dn : List Nat) {d : List SByte} {p : Nat} {rest : List SByte}
    (hv : isValidUtf8 dn = true) (hl : dn.length < 65536)
    (hdrop : d.drop p = customBytes dn ++ rest) (hr : 0 < rest.length) :
    ∃ cnt flds,
      BinaryReader.read_u16 ⟨d, p⟩ = .ok (cnt, ⟨d, p + 2⟩) ∧
        SSPMSerializer.readCustomFields cnt ⟨d, p + 2⟩ [] =
          .ok (flds, ⟨d, p + (customBytes dn).length⟩) := by
  by_cases he : dn.isEmpty
  · have hdrop2 : d.drop p = rawL [0, 0] ++ rest := by
      rw [hdrop]
      unfold customBytes
      rw [if_pos he]
      simp [leBytes]
    have hp : p ≤ d.length := le_length_of_drop hdrop2 (by simp [rawL])
    refine ⟨0, [], ?_, ?_⟩
    · have h := read_u16_spec hp hdrop2
      simpa using h
    · rw [show p + (customBytes dn).length = p + 2 from by
        rw [customBytes_len]; simp [he]]
      exact readCustomFields_zero _ _
  · have hkey : difficultyNameKey.length = 15 := rfl
    have hdrop2 : d.drop p = rawL [1, 0] ++
        (rawL (difficultyNameKey.length % 256 :: difficultyNameKey.length / 256 ::
            difficultyNameKey) ++
          (SByte.raw 9 :: (rawL (dn.length % 256 :: dn.length / 256 :: dn) ++ rest))) := by
      rw [hdrop]
      unfold customBytes
      rw [if_neg he]
      rw [show stringBytes difficultyNameKey =
        rawL (difficultyNameKey.length % 256 :: difficultyNameKey.length / 256 ::
          difficultyNameKey) from stringBytes_cons difficultyNameKey (by rw [hkey]; norm_num)]
      rw [stringBytes_cons dn hl]
      simp [rawL, leBytes, List.append_assoc]
    have hp : p ≤ d.length := le_length_of_drop hdrop2 (by simp [rawL])
    have hrem : d.length - p = 22 + dn.length + rest.length := by
      have h := congrArg List.length hdrop2
      rw [List.length_drop] at h
      simp [rawL, hkey] at h
      omega
    refine ⟨1, [(difficultyNameKey, ObjectType.String (some dn))], ?_, ?_⟩
    · have h := read_u16_spec hp hdrop2
      simpa using h
    · have hd2 : d.drop (p + 2) =
          rawL (difficultyNameKey.length % 256 :: difficultyNameKey.length / 256 ::
              difficultyNameKey) ++
            (SByte.raw 9 :: (rawL (dn.length % 256 :: dn.length / 256 :: dn) ++ rest)) :=
        drop_shift (n := 2) (s := rawL [1, 0]) (by simp [rawL]) hdrop2
      rw [readCustomFields_one]
      rw [read_string_spec (by rw [hkey]; norm_num) (by decide) (by omega) hd2]
      simp only [bind, Except.bind]
      have hd3 : d.drop (p + 2 + 2 + difficultyNameKey.length) = SByte.raw 9 ::
          (rawL (dn.length % 256 :: dn.length / 256 :: dn) ++ rest) := by
        have h1 : d.drop (p + 2) =
            rawL [difficultyNameKey.length % 256, difficultyNameKey.length / 256] ++
              (rawL difficultyNameKey ++
                (SByte.raw 9 :: (rawL (dn.length % 256 :: dn.length / 256 :: dn) ++ rest))) := by
          rw [hd2]; simp [rawL]
        have h2 := drop_shift (n := 2)
          (s := rawL [difficultyNameKey.length % 256, difficultyNameKey.length / 256])
          (by simp [rawL]) h1
        exact drop_shift (n := difficultyNameKey.length) (s := rawL difficultyNameKey)
          (by simp [rawL]) h2
      rw [read_u8_spec (by omega) hd3]
      simp only [bind, Except.bind]
      rw [show ObjectType.from_sspm 9 = Except.ok (ObjectType.String none) from rfl]
      simp only [bind, Except.bind, pure, Except.pure]
      rw [show SSPMSerializer.parse_types (ObjectType.String none) =
        SSPMSerializer.parse_string from rfl]
      unfold SSPMSerializer.parse_string
      have hd4 : d.drop (p + 2 + 2 + difficultyNameKey.length + 1) =
          rawL (dn.length % 256 :: dn.length / 256 :: dn) ++ rest :=
        drop_shift (n := 1) (s := [SByte.raw 9]) rfl hd3
      rw [read_string_spec hl hv (by omega) hd4]
      simp only [Except.map, bind, Except.bind]
      rw [readCustomFields_zero]
      rw [show p + 2 + 2 + difficultyNameKey.length + 1 + 2 + dn.length =
        p + (customBytes dn).length from by
          rw [customBytes_len, if_neg he, hkey]; omega]
      rfl

theorem rawL_cons2 (a b : Nat) (s : List Nat) :
    rawL (a :: b :: s) = rawL [a, b] ++ rawL s := by
  simp [rawL]

theorem ok_bind {A B : Type} (a : A) (f : A → Except PErr B) :
    ((Except.ok a : Except PErr A) >>= f) = f a := rfl

set_option maxHeartbeats 4000000 in
theorem deserializeCore_layout (m : Map)
    (hid_v : isValidUtf8 m.id = true) (hid_l : m.id.length < 65536)
    (ht_v : isValidUtf8 m.title = true) (ht_l : m.title.length < 65536)
    (hmap : ∀ s ∈ m.mappers, isValidUtf8 s = true ∧ s.length < 65536)
    (hmapc : m.mappers.length < 65536)
    (hdn_v : isValidUtf8 m.difficulty_name = true) (hdn_l : m.difficulty_name.length < 65536)
    (hlen : m.length < 4294967296)
    (hms : ∀ n ∈ m.notes, n.millisecond < 4294967296)
    (hq : ∀ n ∈ m.notes, isQuantum n.position.1 n.position.2 = true ∨
      (f32AsU8 n.position.1 ≤ 254 ∧ f32AsU8 n.position.2 ≤ 254))
    (hbig : (sspmLayout m).length < 18446744073709551616) :
    SSPMSerializer.deserializeCore (sspmLayout m) =
      .ok ⟨m.id, m.length, m.title, m.mappers, m.audio.getD [], m.cover,
        decNotes m.notes, []⟩ := by
  obtain ⟨D, hD⟩ : ∃ D, D = sspmLayout m := ⟨_, rfl⟩
  rw [← hD]
  have hbigD : D.length < 18446744073709551616 := by rw [hD]; exact hbig
  have hLenA : D.length = 161 + (strsSeg m).length + (customBytes m.difficulty_name).length +
      (m.audio.getD []).length + m.cover.length + (notesBytes m.notes).length := by
    rw [hD]; exact sspmLayout_len m
  have hStrs := strsSeg_len m
  have hALV : audioLenV m = (m.audio.getD []).length := rfl
  have hAOV : audioOffV m = 128 + (strsSeg m).length + (customBytes m.difficulty_name).length :=
    rfl
  have hODF : objdefOffV m = audioOffV m + audioLenV m + m.cover.length := rfl
  have hODA : objdataOffV m = objdefOffV m + 14 := rfl
  have hCOVle : coverOffV m ≤ D.length := by
    rw [coverOffV]
    by_cases hc : m.cover.isEmpty <;> simp [hc] <;> omega
  have hCLVle : coverLenV m ≤ D.length := by
    rw [coverLenV]
    by_cases hc : m.cover.isEmpty <;> simp [hc] <;> omega
  have t0 : D.drop 0 =
      rawL [0x53, 0x53, 0x2B, 0x6D, 0x02, 0x00, 0, 0, 0, 0] ++
        (rawL (List.replicate 20 0) ++ (rawL (leBytes 4 m.length) ++
          (rawL (leBytes 4 m.notes.length) ++
            (rawL (leBytes 4 (m.notes.length + m.objects.length)) ++
              (rawL (leBytes 1 m.difficulty) ++ (rawL (leBytes 2 0) ++
                (rawL [boolByte m.audio.isSome, boolByte (!m.cover.isEmpty), 0] ++
                  (rawL (leBytes 8 (customOffV m)) ++ (rawL (leBytes 8 (customLenV m)) ++
                    (rawL (leBytes 8 (audioOffV m)) ++ (rawL (leBytes 8 (audioLenV m)) ++
                      (rawL (leBytes 8 (coverOffV m)) ++ (rawL (leBytes 8 (coverLenV m)) ++
                        (rawL (leBytes 8 (objdefOffV m)) ++ (rawL (leBytes 8 14) ++
                          (rawL (leBytes 8 (objdataOffV m)) ++
                            (rawL (leBytes 8 ((notesBytes m.notes).length)) ++
                              (stringBytes m.id ++ (stringBytes m.title ++
                                (stringBytes m.title ++
                                  (rawL (leBytes 2 m.mappers.length) ++
                                    (mappersBytes m.mappers ++
                                      (customBytes m.difficulty_name ++
                                        (rawL (m.audio.getD []) ++ (rawL m.cover ++
                                          (defsSeg ++ (notesBytes m.notes ++
                                            stringBytes exportSignature
                                          ))))))))))))))))))))))))))) := by
    rw [hD, List.drop_zero]
    unfold sspmLayout seg48 offsetsSeg strsSeg
    simp only [rawL, List.map_append, List.append_assoc]
  simp only [SSPMSerializer.deserializeCore]
  rw [read_bytes_spec (n := 10) (by rfl) (Nat.zero_le _) t0]
  simp only [ok_bind]
  rw [if_neg (by decide), if_neg (by decide)]
  have h1 := drop_shift (n := 10) (s := rawL [0x53, 0x53, 0x2B, 0x6D, 0x02, 0x00, 0, 0, 0, 0])
    (by simp [rawL]) t0
  rw [read_sha1_spec (by simp) (by omega) h1]
  simp only [ok_bind]
  have h2 := drop_shift (n := 20) (s := rawL (List.replicate 20 0)) (by simp [rawL]) h1
  rw [read_u32_spec (leBytes_length 4 m.length) (by omega) h2]
  simp only [ok_bind]
  have h3 := drop_shift (n := 4) (s := rawL (leBytes 4 m.length))
    (by simp [rawL, leBytes_length]) h2
  rw [read_u32_spec (leBytes_length 4 m.notes.length) (by omega) h3]
  simp only [ok_bind]
  have h4 := drop_shift (n := 4) (s := rawL (leBytes 4 m.notes.length))
    (by simp [rawL, leBytes_length]) h3
  rw [read_u32_spec (leBytes_length 4 (m.notes.length + m.objects.length)) (by omega) h4]
  simp only [ok_bind]
  have h5 := drop_shift (n := 4) (s := rawL (leBytes 4 (m.notes.length + m.objects.length)))
    (by simp [rawL, leBytes_length]) h4
  have h5c : D.drop (0 + 10 + 20 + 4 + 4 + 4) =
      SByte.raw (m.difficulty % 256) ::
        (rawL (leBytes 2 0) ++
          (rawL [boolByte m.audio.isSome, boolByte (!m.cover.isEmpty), 0] ++
            (rawL (leBytes 8 (customOffV m)) ++ (rawL (leBytes 8 (customLenV m)) ++
              (rawL (leBytes 8 (audioOffV m)) ++ (rawL (leBytes 8 (audioLenV m)) ++
                (rawL (leBytes 8 (coverOffV m)) ++ (rawL (leBytes 8 (coverLenV m)) ++
                  (rawL (leBytes 8 (objdefOffV m)) ++ (rawL (leBytes 8 14) ++
                    (rawL (leBytes 8 (objdataOffV m)) ++
                      (rawL (leBytes 8 ((notesBytes m.notes).length)) ++
                        (stringBytes m.id ++ (stringBytes m.title ++
                          (stringBytes m.title ++
                            (rawL (leBytes 2 m.mappers.length) ++
                              (mappersBytes m.mappers ++
                                (customBytes m.difficulty_name ++
                                  (rawL (m.audio.getD []) ++ (rawL m.cover ++
                                    (defsSeg ++ (notesBytes m.notes ++
                                      stringBytes exportSignature
                                    )))))))))))))))))))))) := h5
  rw [read_u8_spec (by omega) h5c]
  simp only [ok_bind]
  have h6 := drop_shift (n := 1) (s := [SByte.raw (m.difficulty % 256)]) rfl h5c
  have h6c : D.drop (0 + 10 + 20 + 4 + 4 + 4 + 1) = rawL [0, 0] ++
      (rawL [boolByte m.audio.isSome, boolByte (!m.cover.isEmpty), 0] ++
        (rawL (leBytes 8 (customOffV m)) ++ (rawL (leBytes 8 (customLenV m)) ++
          (rawL (leBytes 8 (audioOffV m)) ++ (rawL (leBytes 8 (audioLenV m)) ++
            (rawL (leBytes 8 (coverOffV m)) ++ (rawL (leBytes 8 (coverLenV m)) ++
              (rawL (leBytes 8 (objdefOffV m)) ++ (rawL (leBytes 8 14) ++
                (rawL (leBytes 8 (objdataOffV m)) ++
                  (rawL (leBytes 8 ((notesBytes m.notes).length)) ++
                    (stringBytes m.id ++ (stringBytes m.title ++
                      (stringBytes m.title ++
                        (rawL (leBytes 2 m.mappers.length) ++
                          (mappersBytes m.mappers ++
                            (customBytes m.difficulty_name ++
                              (rawL (m.audio.getD []) ++ (rawL m.cover ++
                                (defsSeg ++ (notesBytes m.notes ++
                                  stringBytes exportSignature
                                ))))))))))))))))))))) := h6
  rw [read_u16_spec (by omega) h6c]
  simp only [ok_bind]
  have h7 := drop_shift (n := 2) (s := rawL [0, 0]) (by simp [rawL]) h6c
  have h7a : D.drop (0 + 10 + 20 + 4 + 4 + 4 + 1 + 2) =
      SByte.raw (boolByte m.audio.isSome) ::
        (SByte.raw (boolByte (!m.cover.isEmpty)) :: (SByte.raw 0 ::
          (rawL (leBytes 8 (customOffV m)) ++ (rawL (leBytes 8 (customLenV m)) ++
            (rawL (leBytes 8 (audioOffV m)) ++ (rawL (leBytes 8 (audioLenV m)) ++
              (rawL (leBytes 8 (coverOffV m)) ++ (rawL (leBytes 8 (coverLenV m)) ++
                (rawL (leBytes 8 (objdefOffV m)) ++ (rawL (leBytes 8 14) ++
                  (rawL (leBytes 8 (objdataOffV m)) ++
                    (rawL (leBytes 8 ((notesBytes m.notes).length)) ++
                      (stringBytes m.id ++ (stringBytes m.title ++
                        (stringBytes m.title ++
                          (rawL (leBytes 2 m.mappers.length) ++
                            (mappersBytes m.mappers ++
                              (customBytes m.difficulty_name ++
                                (rawL (m.audio.getD []) ++ (rawL m.cover ++
                                  (defsSeg ++ (notesBytes m.notes ++
                                    stringBytes exportSignature
                                  )))))))))))))))))))))) := h7
  rw [read_bool_spec (by omega) h7a]
  simp only [ok_bind]
  have h7b := drop_shift (n := 1) (s := [SByte.raw (boolByte m.audio.isSome)]) rfl h7a
  rw [read_bool_spec (by omega) h7b]
  simp only [ok_bind]
  have h7c := drop_shift (n := 1) (s := [SByte.raw (boolByte (!m.cover.isEmpty))]) rfl h7b
  rw [read_bool_spec (by omega) h7c]
  simp only [ok_bind]
  have h8 := drop_shift (n := 1) (s := [SByte.raw 0]) rfl h7c
  rw [read_u64_spec (leBytes_length 8 (customOffV m)) (by omega) h8]
  simp only [ok_bind]
  have h9 := drop_shift (n := 8) (s := rawL (leBytes 8 (customOffV m)))
    (by simp [rawL, leBytes_length]) h8
  rw [read_u64_spec (leBytes_length 8 (customLenV m)) (by omega) h9]
  simp only [ok_bind]
  have h10 := drop_shift (n := 8) (s := rawL (leBytes 8 (customLenV m)))
    (by simp [rawL, leBytes_length]) h9
  rw [read_u64_spec (leBytes_length 8 (audioOffV m)) (by omega) h10]
  simp only [ok_bind]
  have h11 := drop_shift (n := 8) (s := rawL (leBytes 8 (audioOffV m)))
    (by simp [rawL, leBytes_length]) h10
  rw [read_u64_spec (leBytes_length 8 (audioLenV m)) (by omega) h11]
  simp only [ok_bind]
  have h12 := drop_shift (n := 8) (s := rawL (leBytes 8 (audioLenV m)))
    (by simp [rawL, leBytes_length]) h11
  rw [read_u64_spec (leBytes_length 8 (coverOffV m)) (by omega) h12]
  simp only [ok_bind]
  have h13 := drop_shift (n := 8) (s := rawL (leBytes 8 (coverOffV m)))
    (by simp [rawL, leBytes_length]) h12
  rw [read_u64_spec (leBytes_length 8 (coverLenV m)) (by omega) h13]
  simp only [ok_bind]
  have h14 := drop_shift (n := 8) (s := rawL (leBytes 8 (coverLenV m)))
    (by simp [rawL, leBytes_length]) h13
  rw [read_u64_spec (leBytes_length 8 (objdefOffV m)) (by omega) h14]
  simp only [ok_bind]
  have h15 := drop_shift (n := 8) (s := rawL (leBytes 8 (objdefOffV m)))
    (by simp [rawL, leBytes_length]) h14
  rw [read_u64_spec (leBytes_length 8 14) (by omega) h15]
  simp only [ok_bind]
  have h16 := drop_shift (n := 8) (s := rawL (leBytes 8 14))
    (by simp [rawL, leBytes_length]) h15
  rw [read_u64_spec (leBytes_length 8 (objdataOffV m)) (by omega) h16]
  simp only [ok_bind]
  have h17 := drop_shift (n := 8) (s := rawL (leBytes 8 (objdataOffV m)))
    (by simp [rawL, leBytes_length]) h16
  rw [read_u64_spec (leBytes_length 8 ((notesBytes m.notes).length)) (by omega) h17]
  simp only [ok_bind]
  have h18 := drop_shift (n := 8) (s := rawL (leBytes 8 ((notesBytes m.notes).length)))
    (by simp [rawL, leBytes_length]) h17
  rw [stringBytes_cons m.id hid_l] at h18
  rw [read_string_spec hid_l hid_v (by omega) h18]
  simp only [ok_bind]
  have h18b : D.drop (0 + 10 + 20 + 4 + 4 + 4 + 1 + 2 + 1 + 1 + 1 + 8 + 8 + 8 + 8 + 8 + 8 + 8 + 8 + 8 + 8) =
      rawL [m.id.length % 256, m.id.length / 256] ++ (rawL m.id ++
        (stringBytes m.title ++ (stringBytes m.title ++
          (rawL (leBytes 2 m.mappers.length) ++
            (mappersBytes m.mappers ++
              (customBytes m.difficulty_name ++
                (rawL (m.audio.getD []) ++ (rawL m.cover ++
                  (defsSeg ++ (notesBytes m.notes ++ stringBytes exportSignature)))))))))) := h18
  have h19 := drop_shift (n := 2) (s := rawL [m.id.length % 256, m.id.length / 256])
    (by simp [rawL]) h18b
  have h20 := drop_shift (n := m.id.length) (s := rawL m.id) (by simp [rawL]) h19
  rw [stringBytes_cons m.title ht_l] at h20
  rw [read_string_spec ht_l ht_v (by omega) h20]
  simp only [ok_bind]
  have h20b : D.drop (0 + 10 + 20 + 4 + 4 + 4 + 1 + 2 + 1 + 1 + 1 + 8 + 8 + 8 + 8 + 8 + 8 + 8 + 8 + 8 + 8 + 2 + m.id.length) =
      rawL [m.title.length % 256, m.title.length / 256] ++ (rawL m.title ++
        (rawL (m.title.length % 256 :: m.title.length / 256 :: m.title) ++
          (rawL (leBytes 2 m.mappers.length) ++
            (mappersBytes m.mappers ++
              (customBytes m.difficulty_name ++
                (rawL (m.audio.getD []) ++ (rawL m.cover ++
                  (defsSeg ++ (notesBytes m.notes ++ stringBytes exportSignature))))))))) := h20
  have h21 := drop_shift (n := 2) (s := rawL [m.title.length % 256, m.title.length / 256])
    (by simp [rawL]) h20b
  have h22 := drop_shift (n := m.title.length) (s := rawL m.title) (by simp [rawL]) h21
  rw [read_string_spec ht_l ht_v (by omega) h22]
  simp only [ok_bind]
  have h22b : D.drop (0 + 10 + 20 + 4 + 4 + 4 + 1 + 2 + 1 + 1 + 1 + 8 + 8 + 8 + 8 + 8 + 8 + 8 + 8 + 8 + 8 + 2 + m.id.length + 2 + m.title.length) =
      rawL [m.title.length % 256, m.title.length / 256] ++ (rawL m.title ++
        (rawL (leBytes 2 m.mappers.length) ++
            (mappersBytes m.mappers ++
              (customBytes m.difficulty_name ++
                (rawL (m.audio.getD []) ++ (rawL m.cover ++
                  (defsSeg ++ (notesBytes m.notes ++ stringBytes exportSignature)))))))) := h22
  have h23 := drop_shift (n := 2) (s := rawL [m.title.length % 256, m.title.length / 256])
    (by simp [rawL]) h22b
  have h24 := drop_shift (n := m.title.length) (s := rawL m.title) (by simp [rawL]) h23
  have h24c : D.drop
      (0 + 10 + 20 + 4 + 4 + 4 + 1 + 2 + 1 + 1 + 1 + 8 + 8 + 8 + 8 + 8 + 8 + 8 + 8 + 8 + 8 +
        2 + m.id.length + 2 + m.title.length + 2 + m.title.length) =
      rawL [m.mappers.length % 256, m.mappers.length / 256 % 256] ++
        (mappersBytes m.mappers ++
          (customBytes m.difficulty_name ++
            (rawL (m.audio.getD []) ++ (rawL m.cover ++
              (defsSeg ++ (notesBytes m.notes ++ stringBytes exportSignature)))))) := h24
  rw [read_u16_spec (by omega) h24c]
  simp only [ok_bind]
  rw [show m.mappers.length % 256 + 256 * (m.mappers.length / 256 % 256) = m.mappers.length
    from by omega]
  have h25 := drop_shift (n := 2)
    (s := rawL [m.mappers.length % 256, m.mappers.length / 256 % 256]) (by simp [rawL]) h24c
  have hcpos : 0 < (customBytes m.difficulty_name).length := by
    rw [customBytes_len]
    by_cases he : m.difficulty_name.isEmpty <;> simp [he]
  have hrestM : 0 < (customBytes m.difficulty_name ++
      (rawL (m.audio.getD []) ++ (rawL m.cover ++
        (defsSeg ++ (notesBytes m.notes ++ stringBytes exportSignature))))).length := by
    simp only [List.length_append]
    omega
  rw [readMappers_sim m.mappers D _ _ hmap hrestM h25]
  simp only [ok_bind]
  have h26 := drop_shift (n := (mappersBytes m.mappers).length) (s := mappersBytes m.mappers)
    rfl h25
  have hrestC : 0 < (rawL (m.audio.getD []) ++ (rawL m.cover ++
      (defsSeg ++ (notesBytes m.notes ++ stringBytes exportSignature)))).length := by
    simp only [List.length_append, defsSeg_length]
    omega
  obtain ⟨cnt, flds, hc1, hc2⟩ :=
    customFields_decode m.difficulty_name hdn_v hdn_l h26 hrestC
  rw [hc1]
  simp only [ok_bind]
  rw [hc2]
  simp only [ok_bind]
  have h27 := drop_shift (n := (customBytes m.difficulty_name).length)
    (s := customBytes m.difficulty_name) rfl h26
  rw [show 0 + 10 + 20 + 4 + 4 + 4 + 1 + 2 + 1 + 1 + 1 + 8 + 8 + 8 + 8 + 8 + 8 + 8 + 8 + 8 + 8 +
      2 + m.id.length + 2 + m.title.length + 2 + m.title.length + 2 +
      (mappersBytes m.mappers).length + (customBytes m.difficulty_name).length =
    audioOffV m from by omega] at h27
  rw [show 0 + 10 + 20 + 4 + 4 + 4 + 1 + 2 + 1 + 1 + 1 + 8 + 8 + 8 + 8 + 8 + 8 + 8 + 8 + 8 + 8 +
      2 + m.id.length + 2 + m.title.length + 2 + m.title.length + 2 +
      (mappersBytes m.mappers).length + (customBytes m.difficulty_name).length =
    audioOffV m from by omega]
  rw [boolByte_eq_one, boolByte_eq_one]
  rw [natOfLE_leBytes_lt 8 (audioOffV m) (by omega)]
  rw [natOfLE_leBytes_lt 8 (audioLenV m) (by omega)]
  rw [natOfLE_leBytes_lt 8 (coverOffV m) (by omega)]
  rw [natOfLE_leBytes_lt 8 (coverLenV m) (by omega)]
  rw [natOfLE_leBytes_lt 8 (objdefOffV m) (by omega)]
  rw [natOfLE_leBytes_lt 8 (objdataOffV m) (by omega)]
  rw [natOfLE_leBytes_lt 8 ((notesBytes m.notes).length) (by omega)]
  rw [natOfLE_leBytes_lt 4 m.length hlen]
  simp only [BinaryReader.seekStart]
  have h28 : D.drop (audioOffV m + audioLenV m) =
      rawL m.cover ++ (defsSeg ++ (notesBytes m.notes ++ stringBytes exportSignature)) := by
    exact drop_shift (n := audioLenV m) (s := rawL (m.audio.getD []))
      (by rw [rawL_length, hALV]) h27
  have h29 : D.drop (objdefOffV m) =
      defsSeg ++ (notesBytes m.notes ++ stringBytes exportSignature) := by
    have h := drop_shift (n := m.cover.length) (s := rawL m.cover) (by rw [rawL_length]) h28
    rw [← hODF] at h
    exact h
  have hrD : 0 < (notesBytes m.notes ++ stringBytes exportSignature).length := by
    simp only [List.length_append, exportSig_len]
    omega
  obtain ⟨hdef1, hdef2⟩ := loopDefinitions_sim h29 hrD
  have h30 : D.drop (objdataOffV m) =
      notesBytes m.notes ++ stringBytes exportSignature := by
    have h := drop_shift (n := 14) (s := defsSeg) defsSeg_length h29
    rw [← hODA] at h
    exact h
  have hfuel : m.notes.length < D.length + 1 := by
    have h := notes_length_le_bytes m.notes
    omega
  have hloop := loopObjects_sim m.notes D (objdataOffV m)
    (stringBytes exportSignature) (D.length + 1) [] [] hfuel hms hq
    (by rw [exportSig_len]; omega) h30
  by_cases hA : m.audio.isSome = true
  · rw [if_pos hA]
    obtain ⟨a, ha⟩ := Option.isSome_iff_exists.mp hA
    have h27a : D.drop (audioOffV m) = rawL a ++
        (rawL m.cover ++ (defsSeg ++ (notesBytes m.notes ++ stringBytes exportSignature))) := by
      rw [ha] at h27
      simpa using h27
    rw [read_bytes_spec (n := audioLenV m) (b := a) (by rw [hALV, ha]; rfl) (by omega) h27a]
    simp only [ok_bind]
    by_cases hC : m.cover.isEmpty
    · simp only [hC, Bool.not_true, Bool.false_eq_true, if_false]
      rw [hdef1]
      simp only [ok_bind]
      rw [hdef2]
      simp only [ok_bind, BinaryReader.stream_position]
      rw [hloop]
      simp only [ok_bind]
      simp [ha, List.isEmpty_iff.mp hC,
        show coverLenV m = 0 from by rw [coverLenV, if_pos hC]]
    · have hC2 : m.cover.isEmpty = false := by
        cases hcc : m.cover.isEmpty
        · rfl
        · exact absurd hcc hC
      simp only [hC2, Bool.not_false, if_true]
      rw [show coverOffV m = audioOffV m + audioLenV m from by rw [coverOffV, if_neg hC],
        show coverLenV m = m.cover.length from by rw [coverLenV, if_neg hC]]
      rw [read_bytes_spec (n := m.cover.length) (b := m.cover) rfl (by omega) h28]
      simp only [ok_bind]
      rw [hdef1]
      simp only [ok_bind]
      rw [hdef2]
      simp only [ok_bind, BinaryReader.stream_position]
      rw [hloop]
      simp only [ok_bind]
      simp [ha]
  · rw [if_neg hA]
    have hAn : m.audio = none := by
      cases hm : m.audio
      · rfl
      · rw [hm] at hA
        exact absurd rfl hA
    by_cases hC : m.cover.isEmpty
    · simp only [hC, Bool.not_true, Bool.false_eq_true, if_false]
      rw [hdef1]
      simp only [ok_bind]
      rw [hdef2]
      simp only [ok_bind, BinaryReader.stream_position]
      rw [hloop]
      simp only [ok_bind]
      simp [hAn, List.isEmpty_iff.mp hC,
        show audioLenV m = 0 from by rw [hALV, hAn]; rfl,
        show coverLenV m = 0 from by rw [coverLenV, if_pos hC]]
    · have hC2 : m.cover.isEmpty = false := by
        cases hcc : m.cover.isEmpty
        · rfl
        · exact absurd hcc hC
      simp only [hC2, Bool.not_false, if_true]
      rw [show coverOffV m = audioOffV m + audioLenV m from by rw [coverOffV, if_neg hC],
        show coverLenV m = m.cover.length from by rw [coverLenV, if_neg hC]]
      rw [read_bytes_spec (n := m.cover.length) (b := m.cover) rfl (by omega) h28]
      simp only [ok_bind]
      rw [hdef1]
      simp only [ok_bind]
      rw [hdef2]
      simp only [ok_bind, BinaryReader.stream_position]
      rw [hloop]
      simp only [ok_bind]
      simp [hAn, show audioLenV m = 0 from by rw [hALV, hAn]; rfl]

theorem decNote_millisecond (n : Note) : (decNote n).millisecond = n.millisecond := by
  unfold decNote
  split <;> rfl

theorem decNotes_rel (ns : List Note) :
    List.Forall₂ (fun n n2 : Note =>
      n2.millisecond = n.millisecond ∧
        (isQuantum n.position.1 n.position.2 = true → n2.position = n.position) ∧
        (isQuantum n.position.1 n.position.2 = false →
          n2.position = ((f32AsU8 n.position.1 : Rat) - 1, (f32AsU8 n.position.2 : Rat) - 1)))
      ns (decNotes ns) := by
  induction ns with
  | nil => simp [decNotes]
  | cons n rest ih =>
    refine List.Forall₂.cons ⟨decNote_millisecond n, ?_, ?_⟩ ih
    · intro h
      unfold decNote
      rw [if_pos h]
    · intro h
      unfold decNote
      rw [if_neg (by simp [h])]
      refine Prod.ext ?_ ?_ <;> simp <;> push_cast <;> ring

/-- The Map assembled by deserialize from the encoder layout of `m`. -/
def decodedMap (m : Map) : Map :=
  { id := m.id
    length := m.length
    title := m.title
    artists := []
    difficulty := 0
    difficulty_name := []
    mappers := m.mappers
    audio := if (m.audio.getD []).isEmpty then none else some (m.audio.getD [])
    cover := m.cover
    notes := decNotes m.notes
    objects := []
    format := .SSPM }

theorem deserialize_layout (m : Map)
    (hid_v : isValidUtf8 m.id = true) (hid_l : m.id.length < 65536)
    (ht_v : isValidUtf8 m.title = true) (ht_l : m.title.length < 65536)
    (hmap : ∀ s ∈ m.mappers, isValidUtf8 s = true ∧ s.length < 65536)
    (hmapc : m.mappers.length < 65536)
    (hdn_v : isValidUtf8 m.difficulty_name = true) (hdn_l : m.difficulty_name.length < 65536)
    (hlen : m.length < 4294967296)
    (hms : ∀ n ∈ m.notes, n.millisecond < 4294967296)
    (hq : ∀ n ∈ m.notes, isQuantum n.position.1 n.position.2 = true ∨
      (f32AsU8 n.position.1 ≤ 254 ∧ f32AsU8 n.position.2 ≤ 254))
    (hbig : (sspmLayout m).length < 18446744073709551616) :
    SSPMSerializer.deserialize (sspmLayout m) = .ok (decodedMap m) := by
  unfold SSPMSerializer.deserialize
  rw [deserializeCore_layout m hid_v hid_l ht_v ht_l hmap hmapc hdn_v hdn_l hlen hms hq hbig]
  rfl

theorem audioBytes_decodedMap (m : Map) : (decodedMap m).audioBytes = m.audioBytes := by
  unfold decodedMap Map.audioBytes
  by_cases h : (m.audio.getD []).isEmpty
  · simp [h, List.isEmpty_iff.mp h]
  · simp [h]

/-- C1 counterexample input: a map whose difficulty name is the single byte
`x` and whose single note sits at `(3.004, 0)` — integral to two decimal
places under the encoder's rounding test, hence compact-encoded. -/
def cexMap : Map :=
  { id := [], length := 0, title := [], artists := [], difficulty := 0,
    difficulty_name := [0x78], mappers := [], audio := none, cover := [],
    notes := [⟨0, ((751 : Rat)/250, 0)⟩], objects := [], format := .SSPM }

set_option maxRecDepth 1000000 in
unseal Rat.mul Rat.add Rat.sub Rat.inv in
/-- C1 counterexample: encoding `cexMap` and decoding the result loses the
difficulty name (`x` comes back as the empty string) and moves the note from
`(3.004, 0)` to `(2, -1)` — an error beyond 1 unit on the x axis even though
the claim promises at most 1 unit for compact-encoded positions, and the y
axis is shifted although it was exactly 0. -/
theorem sspm_roundtrip_cex :
    ((SSPMSerializer.serialize cexMap).bind SSPMSerializer.deserialize).map
        (fun m2 => (m2.difficulty_name, m2.notes.map Note.position)) =
      .ok ([], [((2 : Rat), (-1 : Rat))]) ∧
    cexMap.difficulty_name = [0x78] ∧
    cexMap.notes.map Note.position = [((751 : Rat)/250, (0 : Rat))] :=
  ⟨by rfl, rfl, rfl⟩

/-- C1 (amended): for every well-formed Map `m` with no generic records
(strings valid UTF-8 and under the length prefixes' capacity, timestamps
below 2^32, compact-eligible positions casting at most 254), encoding then
decoding succeeds and preserves id, length, title, mappers, audio bytes and
cover; the difficulty name is NOT preserved (it always decodes to the empty
string), and each note keeps its timestamp while its position round-trips
exactly when float-encoded and comes back as `(cast - 1)` per axis when
compact-encoded. -/
theorem sspm_roundtrip (m : Map)
    (hobjs : m.objects = [])
    (hid_v : isValidUtf8 m.id = true) (hid_l : m.id.length < 65536)
    (ht_v : isValidUtf8 m.title = true) (ht_l : m.title.length < 65536)
    (hmap : ∀ s ∈ m.mappers, isValidUtf8 s = true ∧ s.length < 65536)
    (hmapc : m.mappers.length < 65536)
    (hdn_v : isValidUtf8 m.difficulty_name = true)
    (hdn_l : m.difficulty_name.length < 65536)
    (hlen : m.length < 4294967296)
    (hms : ∀ n ∈ m.notes, n.millisecond < 4294967296)
    (hq : ∀ n ∈ m.notes, isQuantum n.position.1 n.position.2 = true ∨
      (f32AsU8 n.position.1 ≤ 254 ∧ f32AsU8 n.position.2 ≤ 254))
    (hbig : (sspmLayout m).length < 18446744073709551616) :
    ∃ m2 : Map,
      SSPMSerializer.serialize m = .ok (sspmLayout m) ∧
      SSPMSerializer.deserialize (sspmLayout m) = .ok m2 ∧
      m2.id = m.id ∧ m2.length = m.length ∧ m2.title = m.title ∧
      m2.mappers = m.mappers ∧ m2.audioBytes = m.audioBytes ∧ m2.cover = m.cover ∧
      m2.objects = m.objects ∧ m2.difficulty_name = [] ∧ m2.notes = decNotes m.notes ∧
      List.Forall₂ (fun n n2 : Note =>
        n2.millisecond = n.millisecond ∧
          (isQuantum n.position.1 n.position.2 = true → n2.position = n.position) ∧
          (isQuantum n.position.1 n.position.2 = false →
            n2.position = ((f32AsU8 n.position.1 : Rat) - 1, (f32AsU8 n.position.2 : Rat) - 1)))
        m.notes m2.notes :=
  ⟨decodedMap m, serialize_layout m hq,
    deserialize_layout m hid_v hid_l ht_v ht_l hmap hmapc hdn_v hdn_l hlen hms hq hbig,
    rfl, rfl, rfl, rfl, audioBytes_decodedMap m, rfl, by rw [hobjs]; rfl, rfl, rfl,
    decNotes_rel m.notes⟩

/-- C1 witness input: a small map exercising title, a mapper, audio bytes and
one compact-encoded note. -/
def witMap : Map :=
  { id := [], length := 5, title := [0x41], artists := [], difficulty := 0,
    difficulty_name := [], mappers := [[0x42]], audio := some [7], cover := [],
    notes := [⟨5, ((1 : Rat), 2)⟩], objects := [], format := .SSPM }

set_option maxRecDepth 1000000 in
unseal Rat.mul Rat.add Rat.sub Rat.inv in
theorem sspm_roundtrip_witness :
    ∃ m2 : Map,
      SSPMSerializer.serialize witMap = .ok (sspmLayout witMap) ∧
      SSPMSerializer.deserialize (sspmLayout witMap) = .ok m2 ∧
      m2.id = witMap.id ∧ m2.length = witMap.length ∧ m2.title = witMap.title ∧
      m2.mappers = witMap.mappers ∧ m2.audioBytes = witMap.audioBytes ∧
      m2.cover = witMap.cover ∧
      m2.objects = witMap.objects ∧ m2.difficulty_name = [] ∧
      m2.notes = decNotes witMap.notes ∧
      List.Forall₂ (fun n n2 : Note =>
        n2.millisecond = n.millisecond ∧
          (isQuantum n.position.1 n.position.2 = true → n2.position = n.position) ∧
          (isQuantum n.position.1 n.position.2 = false →
            n2.position = ((f32AsU8 n.position.1 : Rat) - 1, (f32AsU8 n.position.2 : Rat) - 1)))
        witMap.notes m2.notes :=
  sspm_roundtrip witMap rfl (by decide) (by decide) (by decide) (by decide)
    (by decide) (by decide) (by decide) (by decide) (by decide) (by decide)
    (by decide) (by decide)
